import Mathlib

/-!
Verification development for the bounded long-term memory store with
multi-tier compaction (`src/core/memory_bank.py`, `src/agents/context_compactor.py`).

The Python code manipulates JSON-like dictionaries, so the embedding works on a
`JVal` type of JSON-like values.  Python dictionaries preserve insertion order
and are modelled as association lists with unique keys; `dict.get`, `in`,
subscripting, deletion and assignment are modelled by the `py*` helpers below,
each returning `Except PyErr _` exactly where the corresponding Python
operation can raise.  Python floats are modelled as exact fractions (`PyNum`);
`time.time()` is passed in explicitly as a `now` argument.
-/

/-- Exceptions that the modelled Python operations can raise. -/
inductive PyErr where
  | typeErr
  | keyErr (k : String)
  | attrErr
  | zeroDivErr
deriving DecidableEq

/-- Python float modelled as an exact (not necessarily reduced) fraction with
positive denominator.  Exact rational arithmetic stands in for IEEE doubles;
all numerals appearing in the verified paths are exactly representable. -/
structure PyNum where
  num : Int
  den : Int
deriving DecidableEq

namespace PyNum

def ofInt (i : Int) : PyNum := ⟨i, 1⟩

def add (a b : PyNum) : PyNum := ⟨a.num * b.den + b.num * a.den, a.den * b.den⟩

def sub (a b : PyNum) : PyNum := ⟨a.num * b.den - b.num * a.den, a.den * b.den⟩

def mul (a b : PyNum) : PyNum := ⟨a.num * b.num, a.den * b.den⟩

/-- Division; callers guard against a zero divisor (Python raises
ZeroDivisionError there, which the call sites model explicitly). -/
def div (a b : PyNum) : PyNum :=
  if b.num < 0 then ⟨-(a.num * b.den), a.den * (-b.num)⟩
  else ⟨a.num * b.den, a.den * b.num⟩

def isZero (a : PyNum) : Bool := a.num = 0

def lt (a b : PyNum) : Bool := a.num * b.den < b.num * a.den

def le (a b : PyNum) : Bool := a.num * b.den ≤ b.num * a.den

def numEq (a b : PyNum) : Bool := a.num * b.den = b.num * a.den

/-- Floor to an integer (`time.gmtime` discards the fractional part of the
epoch-seconds argument, flooring like the underlying division). -/
def floorInt (a : PyNum) : Int := a.num.fdiv a.den

/-- Round half to even to the nearest integer, as Python's `round`. -/
def rne (a : PyNum) : Int :=
  let q := a.num.fdiv a.den
  let r := a.num - q * a.den
  if 2 * r < a.den then q
  else if 2 * r > a.den then q + 1
  else if q % 2 = 0 then q else q + 1

/-- Python `round(x, 2)` on a float. -/
def round2 (a : PyNum) : PyNum := ⟨rne (mul a ⟨100, 1⟩), 100⟩

end PyNum

/-- JSON-like values: the data the memory store and the compactor manipulate.
Dictionaries keep insertion order, as in Python. -/
inductive JVal where
  | null
  | bool (b : Bool)
  | int (i : Int)
  | float (f : PyNum)
  | str (s : String)
  | arr (xs : List JVal)
  | obj (kvs : List (String × JVal))

namespace JVal

/-- Association-list lookup, i.e. ordered-dict lookup. -/
def lookupKV (kvs : List (String × JVal)) (k : String) : Option JVal :=
  match kvs with
  | [] => none
  | (k1, v) :: rest => if k1 = k then some v else lookupKV rest k

/-- Dictionary assignment `d[k] = v`: replaces in place if the key exists,
otherwise appends (Python insertion order). -/
def setKV (kvs : List (String × JVal)) (k : String) (v : JVal) : List (String × JVal) :=
  match kvs with
  | [] => [(k, v)]
  | (k1, v1) :: rest => if k1 = k then (k, v) :: rest else (k1, v1) :: setKV rest k v

/-- Dictionary deletion `del d[k]` (call sites guard on membership). -/
def delKV (kvs : List (String × JVal)) (k : String) : List (String × JVal) :=
  match kvs with
  | [] => []
  | (k1, v1) :: rest => if k1 = k then rest else (k1, v1) :: delKV rest k

def hasKV (kvs : List (String × JVal)) (k : String) : Bool :=
  (lookupKV kvs k).isSome

/-- Lookup on a value known to be a dictionary (statement helper). -/
def jLookup (v : JVal) (k : String) : Option JVal :=
  match v with
  | obj kvs => lookupKV kvs k
  | _ => none

/-- Python truthiness. -/
def truthy (v : JVal) : Bool :=
  match v with
  | null => false
  | bool b => b
  | int i => !(i = 0)
  | float f => !f.isZero
  | str s => !(s = "")
  | arr xs => !xs.isEmpty
  | obj kvs => !kvs.isEmpty

/-- Numeric view: Python treats bool as an int in arithmetic and comparisons.
Returns (isFloat, value). -/
def asNum (v : JVal) : Option (Bool × PyNum) :=
  match v with
  | bool b => some (false, ⟨if b then 1 else 0, 1⟩)
  | int i => some (false, ⟨i, 1⟩)
  | float f => some (true, f)
  | _ => none

end JVal

open JVal

/-- Python `==` (never raises): numeric cross-type equality, structural on
containers, dictionary comparison ignores insertion order.  Fuel-indexed so it
computes in the kernel; the fuel is larger than any nesting depth in use. -/
def pyEqF : Nat → JVal → JVal → Bool
  | 0, _, _ => false
  | _ + 1, .null, .null => true
  | _ + 1, .str a, .str b => a = b
  | n + 1, .arr xs, .arr ys =>
      xs.length = ys.length && (xs.zip ys).all fun p => pyEqF n p.1 p.2
  | n + 1, .obj xs, .obj ys =>
      xs.length = ys.length && xs.all fun kv =>
        match lookupKV ys kv.1 with
        | some w => pyEqF n kv.2 w
        | none => false
  | _ + 1, a, b =>
      match a.asNum, b.asNum with
      | some (_, x), some (_, y) => x.numEq y
      | _, _ => false

def pyEq (a b : JVal) : Bool := pyEqF 64 a b

/-- Python `<` between values: numeric or string; otherwise TypeError. -/
def pyLt (a b : JVal) : Except PyErr Bool :=
  match a.asNum, b.asNum with
  | some (_, x), some (_, y) => .ok (x.lt y)
  | _, _ =>
    match a, b with
    | .str s, .str t => .ok (decide (s < t))
    | _, _ => .error .typeErr

/-- Python `>` between values. -/
def pyGt (a b : JVal) : Except PyErr Bool := pyLt b a

/-- Python `+` restricted to numbers (the only additions the verified code
performs); anything else raises TypeError. -/
def pyAdd (a b : JVal) : Except PyErr JVal :=
  match a.asNum, b.asNum with
  | some (fa, x), some (fb, y) =>
      if fa || fb then .ok (.float (x.add y))
      else .ok (.int (x.num + y.num))
  | _, _ => .error .typeErr

/-- Python `*` restricted to numbers. -/
def pyMul (a b : JVal) : Except PyErr JVal :=
  match a.asNum, b.asNum with
  | some (fa, x), some (fb, y) =>
      if fa || fb then .ok (.float (x.mul y))
      else .ok (.int (x.num * y.num))
  | _, _ => .error .typeErr

/-- Python true division `/`: always a float, ZeroDivisionError on zero. -/
def pyDiv (a b : JVal) : Except PyErr JVal :=
  match a.asNum, b.asNum with
  | some (_, x), some (_, y) =>
      if y.isZero then .error .zeroDivErr else .ok (.float (x.div y))
  | _, _ => .error .typeErr

/-- Python `round(x, 2)`: ints unchanged, floats rounded half to even. -/
def pyRound2 (a : JVal) : Except PyErr JVal :=
  match a with
  | .bool _ => .ok a
  | .int _ => .ok a
  | .float f => .ok (.float f.round2)
  | _ => .error .typeErr

/-- Python `len(x)`. -/
def pyLen (v : JVal) : Except PyErr Nat :=
  match v with
  | .str s => .ok s.length
  | .arr xs => .ok xs.length
  | .obj kvs => .ok kvs.length
  | _ => .error .typeErr

/-- Python `needle in container`.  Dictionary membership is key membership
(non-string hashable needles are simply absent since keys here are strings);
string membership is substring search; list membership uses `==`;
other containers raise TypeError. -/
def pyContains (needle : JVal) (container : JVal) : Except PyErr Bool :=
  match container with
  | .obj kvs =>
    match needle with
    | .str s => .ok (hasKV kvs s)
    | .arr _ => .error .typeErr
    | .obj _ => .error .typeErr
    | _ => .ok false
  | .str s =>
    match needle with
    | .str t => .ok (t.isPrefixOf s || ((s.splitOn t).length > 1))
    | _ => .error .typeErr
  | .arr xs => .ok (xs.any fun x => pyEq needle x)
  | _ => .error .typeErr

/-- Python subscript read `d[k]` with a string key. -/
def pyGetItem (v : JVal) (k : String) : Except PyErr JVal :=
  match v with
  | .obj kvs =>
    match lookupKV kvs k with
    | some x => .ok x
    | none => .error (.keyErr k)
  | _ => .error .typeErr

/-- Python subscript write `d[k] = x`. -/
def pySetItem (v : JVal) (k : String) (x : JVal) : Except PyErr JVal :=
  match v with
  | .obj kvs => .ok (.obj (setKV kvs k x))
  | _ => .error .typeErr

/-- Python `d.get(k, default)`: AttributeError on non-dicts. -/
def pyDictGet (v : JVal) (k : String) (default : JVal) : Except PyErr JVal :=
  match v with
  | .obj kvs => .ok ((lookupKV kvs k).getD default)
  | _ => .error .attrErr

/-- Python `d.copy()`: shallow copy, only dicts and lists have it. -/
def pyCopy (v : JVal) : Except PyErr JVal :=
  match v with
  | .obj kvs => .ok (.obj kvs)
  | .arr xs => .ok (.arr xs)
  | _ => .error .attrErr

/-- Effectful map over a list, stopping at the first raised exception
(models a Python `for` loop building a list). -/
def exMapM (f : JVal → Except PyErr JVal) : List JVal → Except PyErr (List JVal)
  | [] => .ok []
  | x :: xs =>
    match f x with
    | .error e => .error e
    | .ok y =>
      match exMapM f xs with
      | .error e => .error e
      | .ok ys => .ok (y :: ys)

/-- Effectful filter (models a Python list comprehension with a condition). -/
def exFilterM (f : JVal → Except PyErr Bool) : List JVal → Except PyErr (List JVal)
  | [] => .ok []
  | x :: xs =>
    match f x with
    | .error e => .error e
    | .ok b =>
      match exFilterM f xs with
      | .error e => .error e
      | .ok ys => .ok (if b then x :: ys else ys)

/-- Hexadecimal digit (lowercase), for JSON string escapes. -/
def hexDigit (n : Nat) : Char :=
  if n < 10 then Char.ofNat (48 + n) else Char.ofNat (87 + n)

def hex4 (n : Nat) : String :=
  String.mk [hexDigit (n / 4096 % 16), hexDigit (n / 256 % 16), hexDigit (n / 16 % 16), hexDigit (n % 16)]

/-- Escape of one character as json.dumps (ensure_ascii default) renders it:
printable ASCII except quote and backslash verbatim, shorthand escapes for
the common control characters, \uXXXX otherwise (surrogate pairs above
the basic plane). -/
def escChar (c : Char) : String :=
  if c = '"' then "\\\""
  else if c = '\\' then "\\\\"
  else if 0x20 ≤ c.toNat && c.toNat ≤ 0x7e then String.singleton c
  else if c = '\n' then "\\n"
  else if c = '\t' then "\\t"
  else if c = '\r' then "\\r"
  else if c.toNat = 8 then "\\b"
  else if c.toNat = 12 then "\\f"
  else if c.toNat ≤ 0xffff then "\\u" ++ hex4 c.toNat
  else
    let v := c.toNat - 0x10000
    "\\u" ++ hex4 (0xd800 + v / 1024) ++ "\\u" ++ hex4 (0xdc00 + v % 1024)

/-- JSON rendering of a string literal. -/
def encStr (s : String) : String :=
  "\"" ++ String.join (s.data.map escChar) ++ "\""

/-- Decimal digits of a proper fraction r/d by long division (d > 0,
0 ≤ r < d), up to 17 digits as Python's shortest-roundtrip float repr never
needs more; every value serialized in the proofs terminates well before. -/
def fracDigits (fuel : Nat) (r d : Int) : String :=
  match fuel with
  | 0 => ""
  | n + 1 =>
    if r = 0 then ""
    else
      let t := r * 10
      let q := t.fdiv d
      toString q ++ fracDigits n (t - q * d) d

/-- Python float repr, as json.dumps prints it (e.g. 0.0, 2.5, -1.25). -/
def renderFloat (f : PyNum) : String :=
  if f.num = 0 then "0.0"
  else
    let sign := if f.num < 0 then "-" else ""
    let a : Int := f.num.natAbs
    let ip := a.fdiv f.den
    let fr := fracDigits 17 (a - ip * f.den) f.den
    sign ++ toString ip ++ "." ++ (if fr = "" then "0" else fr)

def joinComma : List String → String
  | [] => ""
  | [s] => s
  | s :: rest => s ++ ", " ++ joinComma rest

/-- json.dumps with default separators; fuel-indexed for kernel computability,
with fuel far above any nesting depth the store produces. -/
def dumpsF : Nat → JVal → String
  | 0, _ => ""
  | n + 1, v =>
    match v with
    | .null => "null"
    | .bool b => if b then "true" else "false"
    | .int i => toString i
    | .float f => renderFloat f
    | .str s => encStr s
    | .arr xs =>
      match xs with
      | [] => "[]"
      | _ => "[" ++ joinComma (xs.map (dumpsF n)) ++ "]"
    | .obj kvs =>
      match kvs with
      | [] => "\x7b\x7d"
      | _ => "\x7b" ++ joinComma (kvs.map (fun kv => encStr kv.1 ++ ": " ++ dumpsF n kv.2)) ++ "\x7d"

/-- Model of `json.dumps(v)`. -/
def jdumps (v : JVal) : String := dumpsF 64 v

/-- Model of `len(json.dumps(v))`, the size measure used throughout. -/
def jsize (v : JVal) : Nat := (jdumps v).length

/-- Days since 1970-01-01 of a proleptic Gregorian date (civil calendar). -/
def daysFromCivil (y m d : Int) : Int :=
  let y2 := y - (if m ≤ 2 then 1 else 0)
  let era := y2.fdiv 400
  let yoe := y2 - era * 400
  let mp := m + (if m > 2 then (-3) else 9)
  let doy := (153 * mp + 2).fdiv 5 + d - 1
  let doe := yoe * 365 + yoe.fdiv 4 - yoe.fdiv 100 + doy
  era * 146097 + doe - 719468

/-- Civil year of the day `z0` days after 1970-01-01. -/
def civilYear (z0 : Int) : Int :=
  let z := z0 + 719468
  let era := z.fdiv 146097
  let doe := z - era * 146097
  let yoe := (doe - doe.fdiv 1460 + doe.fdiv 36524 - doe.fdiv 146096).fdiv 365
  let y := yoe + era * 400
  let doy := doe - (365 * yoe + yoe.fdiv 4 - yoe.fdiv 100)
  let mp := (5 * doy + 2).fdiv 153
  let mo := mp + (if mp < 10 then 3 else (-9))
  y + (if mo ≤ 2 then 1 else 0)

def pad2 (n : Int) : String := if n < 10 then "0" ++ toString n else toString n

/-- Model of `time.strftime("%Y-%U", time.gmtime(t))`: year and the
week-of-year number with Sunday as first weekday (days before the first
Sunday are week 00). -/
def weekKey (t : Int) : String :=
  let days := t.fdiv 86400
  let year := civilYear days
  let yday := days - daysFromCivil year 1 1
  let wday := (days + 4).emod 7
  toString year ++ "-" ++ pad2 ((yday + 7 - wday).fdiv 7)

/-! Context compactor (`src/agents/context_compactor.py`).  Each `_compact_*`
strategy becomes a function on the record value; where the Python code
mutates a dictionary shared with the caller's record through the shallow
`copy()`, the model additionally threads the caller-visible record
(explicit state passing), so both the returned record and the caller's
record after the call are captured. -/

/-- Value slice `v[:n]` preserving the container type (list or string). -/
def pySliceVal (v : JVal) (n : Nat) : Except PyErr JVal :=
  match v with
  | .arr xs => .ok (.arr (xs.take n))
  | .str s => .ok (.str (s.take n))
  | _ => .error .typeErr

/-- Elements obtained by iterating over `v[:n]` (iterating a string yields
its characters as one-character strings). -/
def pySliceIter (v : JVal) (n : Nat) : Except PyErr (List JVal) :=
  match v with
  | .arr xs => .ok (xs.take n)
  | .str s => .ok ((s.take n).data.map (fun c => .str (String.singleton c)))
  | _ => .error .typeErr

/-- Slice `v[-n:]` (only applied under a length guard). -/
def pySliceLast (v : JVal) (n : Nat) : Except PyErr JVal :=
  match v with
  | .arr xs => .ok (.arr (xs.drop (xs.length - n)))
  | .str s => .ok (.str (s.drop (s.length - n)))
  | _ => .error .typeErr

/-- Python `sum(xs)`: left fold of `+` starting from the int 0. -/
def pySumGo (acc : JVal) : List JVal → Except PyErr JVal
  | [] => .ok acc
  | x :: rest =>
    match pyAdd acc x with
    | .error e => .error e
    | .ok a => pySumGo a rest

def pySum (xs : List JVal) : Except PyErr JVal := pySumGo (.int 0) xs

/-- Inner loop of `_count_total_tasks` over the days of one week. -/
def countDays : List JVal → Except PyErr Int
  | [] => .ok 0
  | day :: rest =>
    match pyDictGet day "tasks" (.arr []) with
    | .error e => .error e
    | .ok tasks =>
      match pyLen tasks with
      | .error e => .error e
      | .ok n =>
        match countDays rest with
        | .error e => .error e
        | .ok m => .ok ((n : Int) + m)

/-- Loop of `_count_total_tasks` over `weekly_structure.values()`. -/
def countWeeks : List (String × JVal) → Except PyErr Int
  | [] => .ok 0
  | (_, week_data) :: rest =>
    match week_data with
    | .arr days =>
      match countDays days with
      | .error e => .error e
      | .ok n =>
        match countWeeks rest with
        | .error e => .error e
        | .ok m => .ok (n + m)
    | .obj wk =>
      match pyLen ((lookupKV wk "daily_tasks").getD (.arr [])) with
      | .error e => .error e
      | .ok n =>
        match countWeeks rest with
        | .error e => .error e
        | .ok m => .ok ((n : Int) * 7 + m)
    | _ => countWeeks rest

/-- Model of `ContextCompactor._count_total_tasks`. -/
def count_total_tasks (weekly_structure : JVal) : Except PyErr Int :=
  if !weekly_structure.truthy then .ok 0
  else
    match weekly_structure with
    | .obj kvs => countWeeks kvs
    | _ => .error .attrErr

/-- Dedup preserving first occurrence, with Python `==` collapsing.  The
source uses `list(set(..))`, whose iteration order is interpreter-hash
dependent; the embedding fixes the deterministic first-occurrence order
(the property relied on downstream is only membership and the ≤5 bound). -/
def pyDedup (seen : List JVal) : List JVal → List JVal
  | [] => []
  | x :: xs =>
    if seen.any (pyEq x) then pyDedup seen xs
    else x :: pyDedup (x :: seen) xs

/-- Hashability test: `set()` over values raises TypeError when an element
is a list or a dict. -/
def pyHashable (v : JVal) : Bool :=
  match v with
  | .arr _ => false
  | .obj _ => false
  | _ => true

/-- Model of `ContextCompactor._extract_key_objectives`. -/
def extract_key_objectives (plan_data : JVal) : Except PyErr JVal :=
  match pyDictGet plan_data "success_criteria" (.obj []) with
  | .error e => .error e
  | .ok sc =>
    let fromGoals : Except PyErr (List JVal) :=
      match sc with
      | .obj sck =>
        let wg := (lookupKV sck "weekly_goals").getD (.arr [])
        if wg.truthy then pySliceIter wg 3 else .ok []
      | _ => .ok []
    match fromGoals with
    | .error e => .error e
    | .ok objectives1 =>
      match pyDictGet plan_data "milestones" (.arr []) with
      | .error e => .error e
      | .ok milestones =>
        match pySliceIter milestones 2 with
        | .error e => .error e
        | .ok ms =>
          let fromMilestones := ms.filterMap fun m =>
            match m with
            | .obj mk2 => some ((lookupKV mk2 "milestone").getD (.str ""))
            | _ => none
          let objectives := objectives1 ++ fromMilestones
          match exFilterM (fun o =>
              if !o.truthy then .ok false
              else match pyLen o with
                   | .error e => .error e
                   | .ok n => .ok (n > 0)) objectives with
          | .error e => .error e
          | .ok kept =>
            if kept.all pyHashable then .ok (.arr ((pyDedup [] kept).take 5))
            else .error .typeErr

/-- Model of `ContextCompactor._estimate_difficulty`. -/
def estimate_difficulty (weekly_structure : JVal) : Except PyErr JVal :=
  match count_total_tasks weekly_structure with
  | .error e => .error e
  | .ok total_tasks =>
    match pyLen weekly_structure with
    | .error e => .error e
    | .ok total_weeks =>
      if total_weeks = 0 then .ok (.str "unknown")
      else
        match pyDiv (.int total_tasks) (.int (total_weeks * 7)) with
        | .error e => .error e
        | .ok avg =>
          match pyGt avg (.int 5) with
          | .error e => .error e
          | .ok hi =>
            if hi then .ok (.str "high")
            else
              match pyGt avg (.int 2) with
              | .error e => .error e
              | .ok mid => .ok (.str (if mid then "medium" else "low"))

/-- Model of `ContextCompactor._summarize_plan`. -/
def summarize_plan (plan : JVal) : Except PyErr JVal :=
  match pyDictGet plan "plan_data" (.obj []) with
  | .error e => .error e
  | .ok plan_data =>
    match pyDictGet plan_data "metadata" (.obj []) with
    | .error e => .error e
    | .ok metadata =>
      match pyDictGet plan_data "weekly_structure" (.obj []) with
      | .error e => .error e
      | .ok weekly_structure =>
        match pyDictGet metadata "plan_duration_weeks" (.int 0) with
        | .error e => .error e
        | .ok dw =>
          match count_total_tasks weekly_structure with
          | .error e => .error e
          | .ok tt =>
            match pyDictGet plan "completion_rate" (.str "unknown") with
            | .error e => .error e
            | .ok cr =>
              match extract_key_objectives plan_data with
              | .error e => .error e
              | .ok ko =>
                match estimate_difficulty weekly_structure with
                | .error e => .error e
                | .ok dl =>
                  .ok (.obj [("duration_weeks", dw), ("total_tasks", .int tt),
                             ("completion_rate", cr), ("key_objectives", ko),
                             ("difficulty_level", dl)])

/-- Body of the `for plan in older_plans` loop of `_compact_plans`: the
compacted metadata-and-summary entry replacing an older plan. -/
def summarize_plan_entry (plan : JVal) : Except PyErr JVal :=
  match pyDictGet plan "plan_id" .null with
  | .error e => .error e
  | .ok pid =>
    match pyDictGet plan "created_at" .null with
    | .error e => .error e
    | .ok ca =>
      match pyDictGet plan "plan_type" .null with
      | .error e => .error e
      | .ok pt =>
        match summarize_plan plan with
        | .error e => .error e
        | .ok s =>
          .ok (.obj [("plan_id", pid), ("created_at", ca), ("plan_type", pt),
                     ("summary", s), ("compacted", .bool true),
                     ("original_size", .int (jsize plan))])

/-- Model of `ContextCompactor._compact_plans`: keep the last 3 plans
verbatim in front, then the summarized older plans, and record
`compaction_metadata`. -/
def compact_plans (now : PyNum) (memory : JVal) : Except PyErr JVal :=
  match pyContains (.str "plans") memory with
  | .error e => .error e
  | .ok false => .ok memory
  | .ok true =>
    match pyGetItem memory "plans" with
    | .error e => .error e
    | .ok plans =>
      match plans with
      | .arr ps =>
        if ps.length ≤ 5 then .ok memory
        else
          match exMapM summarize_plan_entry (ps.take (ps.length - 3)) with
          | .error e => .error e
          | .ok compacted_older =>
            match pySetItem memory "plans" (.arr (ps.drop (ps.length - 3) ++ compacted_older)) with
            | .error e => .error e
            | .ok m1 =>
              pySetItem m1 "compaction_metadata"
                (.obj [("plans_compacted", .int (ps.length - 3 : Nat)),
                       ("compaction_timestamp", .float now)])
      | _ => .ok memory

/-- Accumulator entry for one ISO year-week in `_aggregate_progress_trends`:
the `weekly_data[week_key]` dictionary, which has this fixed shape. -/
structure WeekBucket where
  completion_rates : List JVal
  efficiency_scores : List JVal
  total_tasks : JVal
  completed_tasks : JVal

/-- Update of the bucket for `wk` inside the grouping loop of
`_aggregate_progress_trends`: append the record's rates and add its task
counts. -/
def bucket_update (wk : String) (cr es tt ct : JVal) :
    List (String × WeekBucket) → Except PyErr (List (String × WeekBucket))
  | [] => .ok []
  | (k, b) :: rest =>
    if k = wk then
      match pyAdd b.total_tasks tt with
      | .error e => .error e
      | .ok t2 =>
        match pyAdd b.completed_tasks ct with
        | .error e => .error e
        | .ok c2 =>
          .ok ((k, ⟨b.completion_rates ++ [cr], b.efficiency_scores ++ [es], t2, c2⟩) :: rest)
    else
      match bucket_update wk cr es tt ct rest with
      | .error e => .error e
      | .ok r => .ok ((k, b) :: r)

/-- Fold step of the grouping loop of `_aggregate_progress_trends`. -/
def trend_step (acc : List (String × WeekBucket)) (record : JVal) :
    Except PyErr (List (String × WeekBucket)) :=
  match pyDictGet record "timestamp" (.int 0) with
  | .error e => .error e
  | .ok rt =>
    match rt.asNum with
    | none => .error .typeErr
    | some (_, x) =>
      let wk := weekKey x.floorInt
      let acc1 := if acc.any (fun p => p.1 = wk) then acc
                  else acc ++ [(wk, ⟨[], [], .int 0, .int 0⟩)]
      match pyDictGet record "metrics" (.obj []) with
      | .error e => .error e
      | .ok metrics =>
        match pyDictGet metrics "completion_rate" (.int 0) with
        | .error e => .error e
        | .ok cr =>
          match pyDictGet metrics "efficiency_score" (.int 0) with
          | .error e => .error e
          | .ok es =>
            match pyDictGet metrics "total_tasks" (.int 0) with
            | .error e => .error e
            | .ok tt =>
              match pyDictGet metrics "completed_tasks" (.int 0) with
              | .error e => .error e
              | .ok ct => bucket_update wk cr es tt ct acc1

def trend_fold (acc : List (String × WeekBucket)) :
    List JVal → Except PyErr (List (String × WeekBucket))
  | [] => .ok acc
  | r :: rs =>
    match trend_step acc r with
    | .error e => .error e
    | .ok acc2 => trend_fold acc2 rs

/-- Weekly-averages loop body of `_aggregate_progress_trends`. -/
def bucket_trend (b : WeekBucket) : Except PyErr JVal :=
  match pySum b.completion_rates with
  | .error e => .error e
  | .ok sc =>
    match pyDiv sc (.int b.completion_rates.length) with
    | .error e => .error e
    | .ok avg_completion =>
      match pySum b.efficiency_scores with
      | .error e => .error e
      | .ok se =>
        match pyDiv se (.int b.efficiency_scores.length) with
        | .error e => .error e
        | .ok avg_efficiency =>
          match pyGt b.total_tasks (.int 0) with
          | .error e => .error e
          | .ok pos =>
            match (if pos then
                     match pyDiv b.completed_tasks b.total_tasks with
                     | .error e => .error e
                     | .ok d => pyMul d (.int 100)
                   else .ok (.int 0) : Except PyErr JVal) with
            | .error e => .error e
            | .ok completion_rate =>
              match pyRound2 avg_completion with
              | .error e => .error e
              | .ok r1 =>
                match pyRound2 avg_efficiency with
                | .error e => .error e
                | .ok r2 =>
                  match pyRound2 completion_rate with
                  | .error e => .error e
                  | .ok r3 =>
                    .ok (.obj [("average_completion_rate", r1),
                               ("average_efficiency_score", r2),
                               ("overall_completion_rate", r3),
                               ("records_aggregated", .int b.completion_rates.length)])

def trends_of : List (String × WeekBucket) → Except PyErr (List (String × JVal))
  | [] => .ok []
  | (k, b) :: rest =>
    match bucket_trend b with
    | .error e => .error e
    | .ok t =>
      match trends_of rest with
      | .error e => .error e
      | .ok ts => .ok ((k, t) :: ts)

/-- Model of `ContextCompactor._aggregate_progress_trends`. -/
def aggregate_progress_trends (progress_records : List JVal) : Except PyErr JVal :=
  if progress_records.isEmpty then .ok (.obj [])
  else
    match trend_fold [] progress_records with
    | .error e => .error e
    | .ok weekly =>
      match trends_of weekly with
      | .error e => .error e
      | .ok trends => .ok (.obj trends)

def one_week_secs : Int := 7 * 24 * 60 * 60

/-- The recency test `record.get("timestamp", 0) > one_week_ago`. -/
def recent_test (now : PyNum) (r : JVal) : Except PyErr Bool :=
  match pyDictGet r "timestamp" (.int 0) with
  | .error e => .error e
  | .ok ts => pyGt ts (.float (now.sub ⟨one_week_secs, 1⟩))

/-- Model of `ContextCompactor._compact_progress_history`.  Besides the
resulting record it reports whether the subscript write
`memory["compaction_metadata"]["progress_records_compacted"] = n` executed
(`some n`), since that write lands in place on whatever dictionary the
`compaction_metadata` key holds — the caller's own dictionary when plan
tiering did not replace it. -/
def compact_progress_history (now : PyNum) (memory : JVal) :
    Except PyErr (JVal × Option Nat) :=
  match pyContains (.str "progress_history") memory with
  | .error e => .error e
  | .ok false => .ok (memory, none)
  | .ok true =>
    match pyGetItem memory "progress_history" with
    | .error e => .error e
    | .ok ph =>
      match ph with
      | .arr records =>
        if records.length ≤ 10 then .ok (memory, none)
        else
          match exFilterM (recent_test now) records with
          | .error e => .error e
          | .ok recent_records =>
            match exFilterM
                (fun r =>
                  match pyContains r (.arr recent_records) with
                  | .error e => .error e
                  | .ok b => .ok (!b)) records with
            | .error e => .error e
            | .ok older_records =>
              if older_records.isEmpty then .ok (memory, none)
              else
                match aggregate_progress_trends older_records with
                | .error e => .error e
                | .ok aggregated_trends =>
                  match pySetItem memory "progress_trends" aggregated_trends with
                  | .error e => .error e
                  | .ok m1 =>
                    match pySetItem m1 "progress_history" (.arr recent_records) with
                    | .error e => .error e
                    | .ok m2 =>
                      match pyGetItem m2 "compaction_metadata" with
                      | .error e => .error e
                      | .ok cm =>
                        match pySetItem cm "progress_records_compacted" (.int older_records.length) with
                        | .error e => .error e
                        | .ok cm2 =>
                          match pySetItem m2 "compaction_metadata" cm2 with
                          | .error e => .error e
                          | .ok m3 => .ok (m3, some older_records.length)
      | _ => .ok (memory, none)

/-- Stable insertion into a descending run: the new item goes before the
first strictly smaller value, hence after every earlier equal value —
exactly the order `sorted(items, key=value, reverse=True)` produces. -/
def sorted_desc_insert (x : String × JVal) :
    List (String × JVal) → Except PyErr (List (String × JVal))
  | [] => .ok [x]
  | y :: ys =>
    match pyLt y.2 x.2 with
    | .error e => .error e
    | .ok true => .ok (x :: y :: ys)
    | .ok false =>
      match sorted_desc_insert x ys with
      | .error e => .error e
      | .ok r => .ok (y :: r)

def sorted_desc_go (acc : List (String × JVal)) :
    List (String × JVal) → Except PyErr (List (String × JVal))
  | [] => .ok acc
  | x :: xs =>
    match sorted_desc_insert x acc with
    | .error e => .error e
    | .ok acc2 => sorted_desc_go acc2 xs

/-- Model of `sorted(times.items(), key=lambda x: x[1], reverse=True)`:
stable descending sort by value; comparing incomparable values raises. -/
def sorted_desc_by_val (items : List (String × JVal)) :
    Except PyErr (List (String × JVal)) :=
  sorted_desc_go [] items

/-- Preferred-learning-times step of `_compact_interaction_patterns`: the
frequency histogram is cut to its top 3 entries when it has more than 3,
otherwise passed through. -/
def plt_step (pk : List (String × JVal)) : Except PyErr (List (String × JVal)) :=
  if hasKV pk "preferred_learning_times" then
    let times := (lookupKV pk "preferred_learning_times").getD .null
    match times with
    | .obj tk =>
      if tk.length > 3 then
        match sorted_desc_by_val tk with
        | .error e => .error e
        | .ok sorted_times => .ok [("preferred_learning_times", .obj (sorted_times.take 3))]
      else .ok [("preferred_learning_times", times)]
    | _ => .ok [("preferred_learning_times", times)]
  else .ok []

/-- Task-completion-patterns step of `_compact_interaction_patterns`. -/
def tcp_step (pk sig1 : List (String × JVal)) : List (String × JVal) :=
  if hasKV pk "task_completion_patterns" then
    match (lookupKV pk "task_completion_patterns").getD .null with
    | .obj ck =>
      sig1 ++ [("completion_summary", .obj
        [("average_daily_completion", (lookupKV ck "average_daily_completion").getD .null),
         ("best_performing_day", (lookupKV ck "best_performing_day").getD .null),
         ("consistency_score", (lookupKV ck "consistency_score").getD .null)])]
    | _ => sig1
  else sig1

/-- Learning-style step of `_compact_interaction_patterns`. -/
def lsp_step (pk sig2 : List (String × JVal)) : List (String × JVal) :=
  if hasKV pk "learning_style_preferences" then
    sig2 ++ [("learning_style_preferences", (lookupKV pk "learning_style_preferences").getD .null)]
  else sig2

/-- Model of `ContextCompactor._compact_interaction_patterns`. -/
def compact_interaction_patterns (memory : JVal) : Except PyErr JVal :=
  match pyContains (.str "interaction_patterns") memory with
  | .error e => .error e
  | .ok false => .ok memory
  | .ok true =>
    match pyGetItem memory "interaction_patterns" with
    | .error e => .error e
    | .ok patterns =>
      match patterns with
      | .obj pk =>
        match plt_step pk with
        | .error e => .error e
        | .ok sig1 => pySetItem memory "interaction_patterns" (.obj (lsp_step pk (tcp_step pk sig1)))
      | _ => .ok memory

/-- Fold of `_calculate_total_learning_hours` over the progress records. -/
def tlh_fold (acc : JVal) : List JVal → Except PyErr JVal
  | [] => .ok acc
  | r :: rest =>
    match pyDictGet r "metrics" (.obj []) with
    | .error e => .error e
    | .ok metrics =>
      match pyDictGet metrics "total_duration_minutes" (.int 0) with
      | .error e => .error e
      | .ok d =>
        match pyAdd acc d with
        | .error e => .error e
        | .ok acc2 => tlh_fold acc2 rest

/-- Model of `ContextCompactor._calculate_total_learning_hours`. -/
def calculate_total_learning_hours (memory : JVal) : Except PyErr JVal :=
  match pyContains (.str "progress_history") memory with
  | .error e => .error e
  | .ok false => .ok (.float ⟨0, 1⟩)
  | .ok true =>
    match pyGetItem memory "progress_history" with
    | .error e => .error e
    | .ok ph =>
      let total : Except PyErr JVal :=
        match ph with
        | .arr rs => tlh_fold (.int 0) rs
        | .obj kvs => if kvs.isEmpty then .ok (.int 0) else .error .attrErr
        | .str s => if s = "" then .ok (.int 0) else .error .attrErr
        | _ => .error .typeErr
      match total with
      | .error e => .error e
      | .ok t =>
        match pyDiv t (.int 60) with
        | .error e => .error e
        | .ok h => pyRound2 h

/-- One optional-copy step of `_summarize_preferences`. -/
def pref_add (acc : List (String × JVal)) (preferences : JVal) (k : String) :
    Except PyErr (List (String × JVal)) :=
  match pyContains (.str k) preferences with
  | .error e => .error e
  | .ok false => .ok acc
  | .ok true =>
    match pyGetItem preferences k with
    | .error e => .error e
    | .ok v => .ok (acc ++ [(k, v)])

/-- Model of `ContextCompactor._summarize_preferences`. -/
def summarize_preferences (preferences : JVal) : Except PyErr JVal :=
  if !preferences.truthy then .ok (.obj [])
  else
    match pyContains (.str "preferred_formats") preferences with
    | .error e => .error e
    | .ok hasPf =>
      let s1 : Except PyErr (List (String × JVal)) :=
        if hasPf then
          match pyGetItem preferences "preferred_formats" with
          | .error e => .error e
          | .ok pf =>
            match pySliceVal pf 3 with
            | .error e => .error e
            | .ok sl => .ok [("preferred_formats", sl)]
        else .ok []
      match s1 with
      | .error e => .error e
      | .ok acc1 =>
        match pref_add acc1 preferences "difficulty_level" with
        | .error e => .error e
        | .ok acc2 =>
          match pref_add acc2 preferences "learning_style" with
          | .error e => .error e
          | .ok acc3 =>
            match pref_add acc3 preferences "daily_study_hours" with
            | .error e => .error e
            | .ok acc4 => .ok (.obj acc4)

/-- Delete a top-level field if present (the `del memory[field]` loop of
`_summarize_metadata`; the keys are always present in essential_metadata). -/
def delField (m : JVal) (k : String) : JVal :=
  match m with
  | .obj kvs => if hasKV kvs k then .obj (delKV kvs k) else m
  | _ => m

/-- Model of `ContextCompactor._summarize_metadata`. -/
def summarize_metadata (memory : JVal) : Except PyErr JVal :=
  match pyDictGet memory "created_at" .null with
  | .error e => .error e
  | .ok ca =>
    match pyDictGet memory "last_accessed" .null with
    | .error e => .error e
    | .ok la =>
      match pyDictGet memory "last_updated" .null with
      | .error e => .error e
      | .ok lu =>
        match calculate_total_learning_hours memory with
        | .error e => .error e
        | .ok tlh =>
          match pyDictGet memory "preferences" (.obj []) with
          | .error e => .error e
          | .ok prefs =>
            match summarize_preferences prefs with
            | .error e => .error e
            | .ok psum =>
              let essential : JVal := .obj
                [("created_at", ca), ("last_accessed", la), ("last_updated", lu),
                 ("total_learning_hours", tlh), ("preferences_summary", psum)]
              let m1 := delField (delField (delField memory "created_at") "last_accessed") "last_updated"
              pySetItem m1 "essential_metadata" essential

/-- Substring test used when a loop iterates dictionary keys. -/
def strHas (needle s : String) : Bool :=
  needle.isPrefixOf s || (s.splitOn needle).length > 1

/-- Body of the force-summarize loop of `_enforce_size_limits` for one
element of `compressed_memory["plans"]`: plans holding `plan_data` and not
yet `compacted` are summarized in place (summary added, `plan_data`
removed, `compacted` set). -/
def mutate_plan (plan : JVal) : Except PyErr JVal :=
  match plan with
  | .obj kvs =>
    if hasKV kvs "plan_data" && !(((lookupKV kvs "compacted").getD (.bool false)).truthy) then
      match summarize_plan plan with
      | .error e => .error e
      | .ok s => .ok (.obj (setKV (delKV (setKV kvs "summary" s) "plan_data") "compacted" (.bool true)))
    else .ok plan
  | .str s => if strHas "plan_data" s then .error .attrErr else .ok plan
  | .arr xs => if xs.any (pyEq (.str "plan_data")) then .error .attrErr else .ok plan
  | _ => .error .typeErr

/-- The loop over the plans list; on an exception the already-mutated prefix
is kept (the list object is shared, so the caller observes it). -/
def enforce_plans_loop : List JVal → Except (PyErr × List JVal) (List JVal)
  | [] => .ok []
  | p :: ps =>
    match mutate_plan p with
    | .error e => .error (e, p :: ps)
    | .ok p2 =>
      match enforce_plans_loop ps with
      | .error (e, ps2) => .error (e, p2 :: ps2)
      | .ok ps2 => .ok (p2 :: ps2)

/-- The plans phase of `_enforce_size_limits` on the value stored under
"plans"; iterating a dict yields its keys, iterating a string its
characters (never containing "plan_data"), anything non-iterable raises. -/
def enforce_plans_part (plansVal : JVal) : Except (PyErr × JVal) JVal :=
  match plansVal with
  | .arr ps =>
    match enforce_plans_loop ps with
    | .ok l => .ok (.arr l)
    | .error (e, l) => .error (e, .arr l)
  | .obj kvs =>
    if kvs.any (fun kv => strHas "plan_data" kv.1) then .error (.attrErr, plansVal)
    else .ok plansVal
  | .str _ => .ok plansVal
  | _ => .error (.typeErr, plansVal)

/-- Step 1 of `_enforce_size_limits`: truncate `progress_history` to the
last 5 entries when longer. -/
def trunc_progress (m : JVal) : Except PyErr JVal :=
  match pyContains (.str "progress_history") m with
  | .error e => .error e
  | .ok false => .ok m
  | .ok true =>
    match pyGetItem m "progress_history" with
    | .error e => .error e
    | .ok ph =>
      match pyLen ph with
      | .error e => .error e
      | .ok n =>
        if n > 5 then
          match pySliceLast ph 5 with
          | .error e => .error e
          | .ok sl => pySetItem m "progress_history" sl
        else .ok m

/-- Step 3 of `_enforce_size_limits`: drop the listed non-essential fields
whose serialized size exceeds 1000 bytes. -/
def drop_large_field (m : JVal) (k : String) : JVal :=
  match m with
  | .obj kvs =>
    match lookupKV kvs k with
    | some v => if jsize v > 1000 then .obj (delKV kvs k) else m
    | none => m
  | _ => m

def drop_large_fields (m : JVal) : JVal :=
  drop_large_field (drop_large_field (drop_large_field m "interaction_patterns")
    "compaction_metadata") "progress_trends"

/-- Fires exactly when `_compact_plans` transformed the record: a plans list
longer than 5 entries. -/
def plans_fires (m : JVal) : Bool :=
  match m with
  | .obj kvs =>
    match lookupKV kvs "plans" with
    | some (.arr ps) => ps.length > 5
    | _ => false
  | _ => false

/-- Caller-visible effect of the in-place plan mutations of
`_enforce_size_limits`: when plan tiering fired, the first 3 entries of the
compacted list are the caller's last 3 plan dictionaries; otherwise the
whole list object is the caller's. -/
def orig_after_plans_mutation (orig : JVal) (l : JVal) : JVal :=
  match orig with
  | .obj okvs =>
    match lookupKV okvs "plans" with
    | some (.arr ops) =>
      if ops.length > 5 then
        match l with
        | .arr ls => .obj (setKV okvs "plans" (.arr (ops.take (ops.length - 3) ++ ls.take 3)))
        | _ => orig
      else .obj (setKV okvs "plans" l)
    | some _ => .obj (setKV okvs "plans" l)
    | none => orig
  | _ => orig

/-- Model of `ContextCompactor._enforce_size_limits`, threading the
caller's record `orig` alongside the working record `cur` (the plan
dictionaries it mutates are shared with the caller through the shallow
copies). -/
def enforce_size_limits (max_memory_size : Nat) (cur orig : JVal) :
    Except (PyErr × JVal) (JVal × JVal) :=
  if jsize cur ≤ max_memory_size then .ok (cur, orig)
  else
    match trunc_progress cur with
    | .error e => .error (e, orig)
    | .ok c1 =>
      match pyContains (.str "plans") c1 with
      | .error e => .error (e, orig)
      | .ok false => .ok (drop_large_fields c1, orig)
      | .ok true =>
        match pyGetItem c1 "plans" with
        | .error e => .error (e, orig)
        | .ok plansVal =>
          match enforce_plans_part plansVal with
          | .error (e, l) => .error (e, orig_after_plans_mutation orig l)
          | .ok l =>
            match pySetItem c1 "plans" l with
            | .error e => .error (e, orig_after_plans_mutation orig l)
            | .ok c2 => .ok (drop_large_fields c2, orig_after_plans_mutation orig l)

/-- Caller-visible effect of the line
`memory["compaction_metadata"]["progress_records_compacted"] = n` when the
`compaction_metadata` dictionary is the caller's own (plan tiering did not
replace it). -/
def cm_write_orig (orig : JVal) (n : Nat) : JVal :=
  match orig with
  | .obj okvs =>
    match lookupKV okvs "compaction_metadata" with
    | some (.obj ckvs) =>
      .obj (setKV okvs "compaction_metadata"
        (.obj (setKV ckvs "progress_records_compacted" (.int n))))
    | _ => orig
  | _ => orig

/-- The first four strategies of the try-block of `compact_user_memory`
(shallow copy, plans, progress history, interaction patterns, metadata),
threading the caller's record for the in-place effects: the only one up to
here is the `compaction_metadata` write of progress tiering, which lands in
the caller's own dictionary exactly when plan tiering did not replace it. -/
def stages14 (now : PyNum) (user_memory : JVal) :
    Except (PyErr × JVal) (JVal × JVal) :=
  match pyCopy user_memory with
  | .error e => .error (e, user_memory)
  | .ok c0 =>
    match compact_plans now c0 with
    | .error e => .error (e, user_memory)
    | .ok c1 =>
      match compact_progress_history now c1 with
      | .error e => .error (e, user_memory)
      | .ok (c2, wrote) =>
        let o2 := match wrote with
                  | some n => if plans_fires user_memory then user_memory
                              else cm_write_orig user_memory n
                  | none => user_memory
        match compact_interaction_patterns c2 with
        | .error e => .error (e, o2)
        | .ok c3 =>
          match summarize_metadata c3 with
          | .error e => .error (e, o2)
          | .ok c4 => .ok (c4, o2)

/-- The try-block of `compact_user_memory`: the four strategies then size
enforcement. -/
def run_pipeline (max_memory_size : Nat) (now : PyNum) (user_memory : JVal) :
    Except (PyErr × JVal) (JVal × JVal) :=
  match stages14 now user_memory with
  | .error p => .error p
  | .ok (c4, o2) => enforce_size_limits max_memory_size c4 o2

/-- Model of `ContextCompactor.compact_user_memory` (default
`max_memory_size` is 10000): returns the record handed back to the caller
together with the caller's own record after the call.  The except-clause
returns the caller's record object itself, so on failure both components
coincide.  The compaction statistics and logging are observability-only
and omitted. -/
def compact_user_memory (max_memory_size : Nat) (now : PyNum) (user_memory : JVal) :
    JVal × JVal :=
  match run_pipeline max_memory_size now user_memory with
  | .ok p => p
  | .error (_, orig) => (orig, orig)

/-! Memory bank (`src/core/memory_bank.py`).  The disk persistence
(`_load`/`_persist`) is file I/O outside the verified state; the in-memory
`data` map and the access-timestamp map are the modelled state. -/

/-- In-memory state of a `MemoryBank`. -/
structure Bank where
  data : List (String × JVal)
  access_timestamps : List (String × JVal)

/-- The default record created on first access for a key. -/
def default_record (now : PyNum) : JVal :=
  .obj [("profile", .obj []), ("plans", .arr []), ("progress_history", .arr []),
        ("preferences", .obj []), ("interaction_patterns", .obj []),
        ("created_at", .float now), ("last_accessed", .float now)]

/-- Model of `MemoryBank.get_user_memory`.  The Python function captures
`self.data.get(user_id, {})` before the creation block, then stamps
`last_accessed` on the stored record; the returned reference is the stored
record when the user already existed (so the caller sees the fresh stamp)
and the empty placeholder dictionary otherwise. -/
def get_user_memory (bank : Bank) (user_id : String) (now : PyNum) :
    Except PyErr (Bank × JVal) :=
  let ats := setKV bank.access_timestamps user_id (.float now)
  let existed := hasKV bank.data user_id
  let data1 := if existed then bank.data
               else setKV bank.data user_id (default_record now)
  match lookupKV data1 user_id with
  | some (.obj rkvs) =>
    let stamped : JVal := .obj (setKV rkvs "last_accessed" (.float now))
    .ok ({ data := setKV data1 user_id stamped, access_timestamps := ats },
         if existed then stamped else .obj [])
  | some _ => .error .typeErr
  | none => .error .typeErr

/-- One key of the update loop of `MemoryBank.update_user_memory`:
plans/progress_history lists are appended then capped at the 20 most
recent; dict values shallow-merge into an existing dict field; everything
else overwrites. -/
def merge_key (record : JVal) (key : String) (value : JVal) :
    Except PyErr JVal :=
  match record with
  | .obj rk =>
    match value with
    | .arr vs =>
      if key = "plans" || key = "progress_history" then
        let rk1 := if hasKV rk key then rk else setKV rk key (.arr [])
        match (lookupKV rk1 key).getD .null with
        | .arr xs =>
          let l := xs ++ vs
          let l2 := if l.length > 20 then l.drop (l.length - 20) else l
          .ok (.obj (setKV rk1 key (.arr l2)))
        | _ => .error .attrErr
      else .ok (.obj (setKV rk key value))
    | .obj vk =>
      match lookupKV rk key with
      | some (.obj ok2) =>
        .ok (.obj (setKV rk key (.obj (vk.foldl (fun acc kv => setKV acc kv.1 kv.2) ok2))))
      | _ => .ok (.obj (setKV rk key value))
    | _ => .ok (.obj (setKV rk key value))
  | _ => .error .typeErr

def merge_fold (record : JVal) : List (String × JVal) → Except PyErr JVal
  | [] => .ok record
  | (k, v) :: rest =>
    match merge_key record k v with
    | .error e => .error e
    | .ok r2 => merge_fold r2 rest

/-- Model of `MemoryBank.update_user_memory` (persistence omitted). -/
def update_user_memory (bank : Bank) (user_id : String)
    (memory_updates : List (String × JVal)) (now : PyNum) :
    Except PyErr Bank :=
  let data0 := if hasKV bank.data user_id then bank.data
               else setKV bank.data user_id (default_record now)
  match merge_fold ((lookupKV data0 user_id).getD .null) memory_updates with
  | .error e => .error e
  | .ok rec1 =>
    match pySetItem rec1 "last_updated" (.float now) with
    | .error e => .error e
    | .ok rec2 => .ok { bank with data := setKV data0 user_id rec2 }

/-- Model of `MemoryBank.add_progress_record` (persistence omitted): builds
`{**progress_data, "timestamp": now, "record_id": f"progress_{int(now)}"}`
and appends it to the user's `progress_history` — with no cap. -/
def add_progress_record (bank : Bank) (user_id : String)
    (progress_data : JVal) (now : PyNum) : Except PyErr Bank :=
  let ensured : Except PyErr Bank :=
    if hasKV bank.data user_id then .ok bank
    else
      match get_user_memory bank user_id now with
      | .error e => .error e
      | .ok r => .ok r.1
  match ensured with
  | .error e => .error e
  | .ok bank1 =>
    match progress_data with
    | .obj pd =>
      let record : JVal := .obj (setKV (setKV pd "timestamp" (.float now))
        "record_id" (.str ("progress_" ++ toString (now.num.tdiv now.den))))
      match lookupKV bank1.data user_id with
      | some (.obj rk) =>
        match lookupKV rk "progress_history" with
        | some (.arr xs) =>
          let rec2 : JVal := .obj (setKV rk "progress_history" (.arr (xs ++ [record])))
          .ok { bank1 with data := setKV bank1.data user_id rec2 }
        | some _ => .error .attrErr
        | none => .error (.keyErr "progress_history")
      | some _ => .error .typeErr
      | none => .error (.keyErr user_id)
    | _ => .error .typeErr

/-! Statement helpers (projections used to phrase the claims) and basic
dictionary lemmas. -/

/-- The plans list of a record. -/
def plansOf (m : JVal) : List JVal :=
  match jLookup m "plans" with
  | some (.arr ps) => ps
  | _ => []

/-- The plan_id string of a plan entry. -/
def planIdStr (p : JVal) : String :=
  match jLookup p "plan_id" with
  | some (.str s) => s
  | _ => ""

/-- The plan_id strings of a record's plans, in list order. -/
def planIdsOf (m : JVal) : List String := (plansOf m).map planIdStr

/-- The plan entry of a record carrying the given plan_id. -/
def plan_entry (m : JVal) (pid : String) : JVal :=
  ((plansOf m).find? (fun p => planIdStr p == pid)).getD .null

/-- The recorded original_size of the plan entry with the given plan_id. -/
def origSizeOf (m : JVal) (pid : String) : Int :=
  match jLookup (plan_entry m pid) "original_size" with
  | some (.int i) => i
  | _ => 0

/-- First plan entry of a record. -/
def first_plan (m : JVal) : JVal := (plansOf m).headD .null

theorem lookupKV_setKV_self (kvs : List (String × JVal)) (k : String) (v : JVal) :
    lookupKV (setKV kvs k v) k = some v := by
  induction kvs with
  | nil => simp [setKV, lookupKV]
  | cons kv rest ih =>
    obtain ⟨k1, v1⟩ := kv
    by_cases h : k1 = k
    · simp [setKV, h, lookupKV]
    · simp [setKV, h, lookupKV, ih]

theorem lookupKV_setKV_other (kvs : List (String × JVal)) (k k2 : String) (v : JVal)
    (h : k ≠ k2) : lookupKV (setKV kvs k v) k2 = lookupKV kvs k2 := by
  induction kvs with
  | nil => simp [setKV, lookupKV, h]
  | cons kv rest ih =>
    obtain ⟨k1, v1⟩ := kv
    by_cases h1 : k1 = k
    · subst h1
      simp [setKV, lookupKV, h]
    · by_cases h2 : k1 = k2
      · subst h2
        simp [setKV, h1, lookupKV]
      · simp [setKV, h1, lookupKV, h2, ih]

theorem setKV_setKV_self (kvs : List (String × JVal)) (k : String) (v w : JVal) :
    setKV (setKV kvs k v) k w = setKV kvs k w := by
  induction kvs with
  | nil => simp [setKV]
  | cons kv rest ih =>
    obtain ⟨k1, v1⟩ := kv
    by_cases h : k1 = k
    · simp [setKV, h]
    · simp [setKV, h, ih]

theorem exMapM_length (f : JVal → Except PyErr JVal) (xs : List JVal) (ys : List JVal)
    (h : exMapM f xs = .ok ys) : ys.length = xs.length := by
  induction xs generalizing ys with
  | nil =>
    simp [exMapM] at h
    simp [← h]
  | cons x rest ih =>
    simp only [exMapM] at h
    cases hf : f x with
    | error e => rw [hf] at h; exact absurd h (by simp)
    | ok y =>
      rw [hf] at h
      cases hm : exMapM f rest with
      | error e => rw [hm] at h; exact absurd h (by simp)
      | ok ys2 =>
        rw [hm] at h
        cases h
        simp [ih ys2 hm]

/-! Claim theorems. -/

set_option maxRecDepth 100000 in
/-- C3 counterexample: budget monotonicity fails — compacting the empty
record strictly grows its serialized size (metadata consolidation adds an
essential_metadata block), so newSizeBytes ≤ originalSizeBytes does not
hold for every record. -/
theorem compact_not_size_monotone :
    ¬ (jsize ((compact_user_memory 10000 ⟨0, 1⟩ (.obj [])).1) ≤ jsize (.obj [])) := by
  decide

set_option maxRecDepth 100000 in
/-- C3 (amended): compaction does not guarantee newSizeBytes ≤
originalSizeBytes; the same serialization measures the empty record at 2
bytes before and 145 bytes after compaction. -/
theorem compact_empty_record_size_grows :
    jsize (.obj []) = 2 ∧
    jsize ((compact_user_memory 10000 ⟨0, 1⟩ (.obj [])).1) = 145 ∧
    2 < 145 := by
  refine ⟨by decide, by decide, by decide⟩

/-- A record with eleven progress records older than the 7-day window and
no plans: plan tiering does not run, so no compaction_metadata key exists
when progress tiering reaches its bookkeeping write. -/
def c5rec : JVal :=
  .obj [("progress_history", .arr (List.replicate 11 (.obj [("timestamp", .int 0)])))]

set_option maxRecDepth 100000 in
/-- C5 (code_bug): progress tiering is supposed to fold old entries into
progress_trends regardless of plan tiering, but when plan tiering did not
run (and the record carries no compaction_metadata key) the stage raises
KeyError at `memory["compaction_metadata"]["progress_records_compacted"]`,
and the whole compaction returns the record unchanged — no tiering
happens. -/
theorem progress_tiering_keyerror_without_plan_tiering :
    compact_progress_history ⟨1000000000, 1⟩ c5rec = .error (.keyErr "compaction_metadata") ∧
    compact_user_memory 10000 ⟨1000000000, 1⟩ c5rec = (c5rec, c5rec) := by
  exact ⟨rfl, rfl⟩

/-- Six minimal plans, enough to trigger plan tiering. -/
def c1rec : JVal :=
  .obj [("plans", .arr [.obj [("plan_id", .str "p1")], .obj [("plan_id", .str "p2")],
                        .obj [("plan_id", .str "p3")], .obj [("plan_id", .str "p4")],
                        .obj [("plan_id", .str "p5")], .obj [("plan_id", .str "p6")]])]

set_option maxRecDepth 100000 in
/-- C1 counterexample: plan tiering is not idempotent.  One application
reorders the six plans to [p4 p5 p6 | summaries of p1 p2 p3]; a second
application treats the summaries as the most recent entries and summarizes
the previously verbatim plans, yielding a different plans list; a third
application re-summarizes entries that already carry compacted=true,
changing their recorded original_size from 17 to 231. -/
theorem compact_plans_twice_changes_plans :
    ((compact_plans ⟨0, 1⟩ c1rec).map planIdsOf).toOption
      = some ["p4", "p5", "p6", "p1", "p2", "p3"] ∧
    (((compact_plans ⟨0, 1⟩ c1rec).bind (compact_plans ⟨0, 1⟩)).map planIdsOf).toOption
      = some ["p1", "p2", "p3", "p4", "p5", "p6"] ∧
    (["p4", "p5", "p6", "p1", "p2", "p3"] : List String)
      ≠ ["p1", "p2", "p3", "p4", "p5", "p6"] ∧
    (((compact_plans ⟨0, 1⟩ c1rec).bind (compact_plans ⟨0, 1⟩)).map
        (fun m => origSizeOf m "p1")).toOption = some 17 ∧
    ((((compact_plans ⟨0, 1⟩ c1rec).bind (compact_plans ⟨0, 1⟩)).bind
        (compact_plans ⟨0, 1⟩)).map (fun m => origSizeOf m "p1")).toOption = some 231 ∧
    (17 : Int) ≠ 231 := by
  refine ⟨by decide, by decide, by decide, by decide, by decide, by decide⟩

/-- C1 (amended): plan tiering is idempotent only when it does not fire —
a record whose plans entry is missing, not a list, or at most 5 long is
returned unchanged, so a second application equals the first.  When the
list is longer than 5, a second application changes the plans again (see
the counterexample). -/
theorem compact_plans_idempotent_only_when_skipped
    (now : PyNum) (kvs : List (String × JVal))
    (h : plans_fires (.obj kvs) = false) :
    compact_plans now (.obj kvs) = .ok (.obj kvs) ∧
    (compact_plans now (.obj kvs)).bind (compact_plans now)
      = compact_plans now (.obj kvs) := by
  have h1 : compact_plans now (.obj kvs) = .ok (.obj kvs) := by
    cases hl : lookupKV kvs "plans" with
    | none => simp [compact_plans, pyContains, hasKV, hl]
    | some v =>
      cases v with
      | arr ps =>
        have hle : ps.length ≤ 5 := by
          simp [plans_fires, hl, decide_eq_false_iff_not] at h
          omega
        simp [compact_plans, pyContains, hasKV, hl, pyGetItem, hle]
      | null => simp [compact_plans, pyContains, hasKV, hl, pyGetItem]
      | bool b => simp [compact_plans, pyContains, hasKV, hl, pyGetItem]
      | int i => simp [compact_plans, pyContains, hasKV, hl, pyGetItem]
      | float f => simp [compact_plans, pyContains, hasKV, hl, pyGetItem]
      | str s => simp [compact_plans, pyContains, hasKV, hl, pyGetItem]
      | obj kvs2 => simp [compact_plans, pyContains, hasKV, hl, pyGetItem]
  refine ⟨h1, ?_⟩
  rw [h1]
  exact h1

/-- C1 witness: a record with a single plan is left unchanged, and
compacting twice equals compacting once. -/
theorem compact_plans_idempotent_only_when_skipped_witness :
    compact_plans ⟨0, 1⟩ (.obj [("plans", .arr [.null])])
      = .ok (.obj [("plans", .arr [.null])]) ∧
    (compact_plans ⟨0, 1⟩ (.obj [("plans", .arr [.null])])).bind (compact_plans ⟨0, 1⟩)
      = compact_plans ⟨0, 1⟩ (.obj [("plans", .arr [.null])]) :=
  compact_plans_idempotent_only_when_skipped ⟨0, 1⟩ [("plans", .arr [.null])] (by decide)

/-- C10: on a record whose plans list has n > 5 entries (whose older
entries summarize without raising), plan tiering returns a plans list of
length exactly n whose first 3 elements are the last 3 input plans
verbatim in their original relative order, followed by the summarized
versions of the first n-3 input plans in their original relative order —
so chronological order is not preserved. -/
theorem compact_plans_reorders_preserving_length
    (now : PyNum) (kvs : List (String × JVal)) (ps qs : List JVal)
    (hp : lookupKV kvs "plans" = some (.arr ps))
    (hn : 5 < ps.length)
    (hs : exMapM summarize_plan_entry (ps.take (ps.length - 3)) = .ok qs) :
    ∃ m1, compact_plans now (.obj kvs) = .ok m1 ∧
      jLookup m1 "plans" = some (.arr (ps.drop (ps.length - 3) ++ qs)) ∧
      (ps.drop (ps.length - 3) ++ qs).length = ps.length ∧
      (ps.drop (ps.length - 3) ++ qs).take 3 = ps.drop (ps.length - 3) ∧
      (ps.drop (ps.length - 3) ++ qs).drop 3 = qs := by
  have hlen3 : (ps.drop (ps.length - 3)).length = 3 := by
    simp [List.length_drop]
    omega
  have hq : qs.length = ps.length - 3 := by
    have h2 := exMapM_length _ _ _ hs
    simp [List.length_take] at h2
    omega
  refine ⟨.obj (setKV (setKV kvs "plans" (.arr (ps.drop (ps.length - 3) ++ qs)))
      "compaction_metadata"
      (.obj [("plans_compacted", .int (ps.length - 3 : Nat)),
             ("compaction_timestamp", .float now)])), ?_, ?_, ?_, ?_, ?_⟩
  · simp [compact_plans, pyContains, hasKV, hp, pyGetItem, Nat.not_le.mpr hn, hs, pySetItem]
  · show lookupKV _ "plans" = _
    rw [lookupKV_setKV_other _ _ _ _ (by decide), lookupKV_setKV_self]
  · simp [hlen3, hq]
    omega
  · have h3 := List.take_left (ps.drop (ps.length - 3)) qs
    rwa [hlen3] at h3
  · have h3 := List.drop_left (ps.drop (ps.length - 3)) qs
    rwa [hlen3] at h3

/-- Six minimal plans used to exercise plan tiering concretely. -/
def c10plans : List JVal :=
  [.obj [("plan_id", .str "p1")], .obj [("plan_id", .str "p2")],
   .obj [("plan_id", .str "p3")], .obj [("plan_id", .str "p4")],
   .obj [("plan_id", .str "p5")], .obj [("plan_id", .str "p6")]]

/-- The compacted entry plan tiering produces for a minimal plan. -/
def c10sum (pid : String) : JVal :=
  .obj [("plan_id", .str pid), ("created_at", .null), ("plan_type", .null),
        ("summary", .obj [("duration_weeks", .int 0), ("total_tasks", .int 0),
                          ("completion_rate", .str "unknown"),
                          ("key_objectives", .arr []),
                          ("difficulty_level", .str "unknown")]),
        ("compacted", .bool true), ("original_size", .int 17)]

def c10sums : List JVal := [c10sum "p1", c10sum "p2", c10sum "p3"]

/-- C10 witness: the six-plan record concretely. -/
theorem compact_plans_reorders_preserving_length_witness :
    ∃ m1, compact_plans ⟨0, 1⟩ (.obj [("plans", .arr c10plans)]) = .ok m1 ∧
      jLookup m1 "plans"
        = some (.arr (c10plans.drop (c10plans.length - 3) ++ c10sums)) ∧
      (c10plans.drop (c10plans.length - 3) ++ c10sums).length = c10plans.length ∧
      (c10plans.drop (c10plans.length - 3) ++ c10sums).take 3
        = c10plans.drop (c10plans.length - 3) ∧
      (c10plans.drop (c10plans.length - 3) ++ c10sums).drop 3 = c10sums :=
  compact_plans_reorders_preserving_length ⟨0, 1⟩ [("plans", .arr c10plans)]
    c10plans c10sums rfl (by decide) (by rfl)

/-- The progress_history list stored for a user, for statements. -/
def bank_history (b : Bank) (uid : String) : List JVal :=
  match jLookup ((lookupKV b.data uid).getD .null) "progress_history" with
  | some (.arr xs) => xs
  | _ => []

/-- Integer content of a value (projection used in statements). -/
def intVal (v : JVal) : Int :=
  match v with
  | .int i => i
  | _ => 0

def c4hist : List JVal := (List.range 20).map (fun i => .int i)

def c4bank : Bank := ⟨[("u", .obj [("progress_history", .arr c4hist)])], []⟩

/-- C4 counterexample: `add_progress_record` enforces no retention cap —
appending a 21st progress entry to a record already holding 20 leaves 21
entries, and the oldest entry is still there. -/
theorem add_progress_record_exceeds_cap :
    (bank_history c4bank "u").length = 20 ∧
    ((add_progress_record c4bank "u" (.obj []) ⟨0, 1⟩).map
        (fun b => (bank_history b "u").length)).toOption = some 21 ∧
    ((add_progress_record c4bank "u" (.obj []) ⟨0, 1⟩).map
        (fun b => ((bank_history b "u").headD .null) |> intVal)).toOption = some 0 := by
  refine ⟨by decide, by decide, by decide⟩

/-- C4 (amended): the 20-entry retention cap is enforced only by
`update_user_memory`: a list-valued plans/progress_history update is
appended to the stored list and then truncated to the most recent 20
entries (`add_progress_record` appends without a cap, see the
counterexample). -/
theorem update_user_memory_caps_sequences_at_20
    (bank : Bank) (uid : String) (rk : List (String × JVal)) (xs vs : List JVal) (now : PyNum)
    (hu : lookupKV bank.data uid = some (.obj rk))
    (hh : lookupKV rk "progress_history" = some (.arr xs)) :
    ∃ b2, update_user_memory bank uid [("progress_history", .arr vs)] now = .ok b2 ∧
      bank_history b2 uid
        = (if (xs ++ vs).length > 20 then (xs ++ vs).drop ((xs ++ vs).length - 20)
           else xs ++ vs) ∧
      (bank_history b2 uid).length = min (xs.length + vs.length) 20 := by
  have hkv : hasKV bank.data uid = true := by simp [hasKV, hu]
  have hrk : hasKV rk "progress_history" = true := by simp [hasKV, hh]
  have hb : bank_history
      { bank with data := setKV bank.data uid (.obj (setKV
          (setKV rk "progress_history"
            (.arr (if (xs ++ vs).length > 20 then (xs ++ vs).drop ((xs ++ vs).length - 20)
                   else xs ++ vs)))
          "last_updated" (.float now))) } uid
      = (if (xs ++ vs).length > 20 then (xs ++ vs).drop ((xs ++ vs).length - 20)
         else xs ++ vs) := by
    simp only [bank_history, lookupKV_setKV_self, Option.getD_some, jLookup]
    rw [lookupKV_setKV_other _ _ _ _ (by decide), lookupKV_setKV_self]
  refine ⟨_, ?_, hb, ?_⟩
  · simp [update_user_memory, hkv, hu, merge_fold, merge_key, hrk, hh, pySetItem]
  · rw [hb]
    have hlapp : (xs ++ vs).length = xs.length + vs.length := List.length_append xs vs
    rcases Nat.lt_or_ge 20 (xs ++ vs).length with hgt | hle
    · rw [if_pos hgt]
      rw [List.length_drop, hlapp] at *
      omega
    · rw [if_neg (Nat.not_lt.mpr hle)]
      rw [hlapp] at *
      omega

/-- C4 witness: 20 stored entries plus one update entry leave exactly 20. -/
theorem update_user_memory_caps_sequences_at_20_witness :
    ∃ b2, update_user_memory c4bank "u"
          [("progress_history", .arr [JVal.int 99])] ⟨0, 1⟩ = .ok b2 ∧
      bank_history b2 "u"
        = (if (c4hist ++ [JVal.int 99]).length > 20
           then (c4hist ++ [JVal.int 99]).drop ((c4hist ++ [JVal.int 99]).length - 20)
           else c4hist ++ [JVal.int 99]) ∧
      (bank_history b2 "u").length = min (c4hist.length + [JVal.int 99].length) 20 :=
  update_user_memory_caps_sequences_at_20 c4bank "u"
    [("progress_history", .arr c4hist)] c4hist [JVal.int 99] ⟨0, 1⟩ rfl rfl

/-- C8 counterexample: on first access `get_user_memory` stores a full
default record for the key but hands the caller the empty placeholder
captured before creation — not the created record (their "profile"
projections already differ). -/
theorem get_user_memory_first_access_returns_empty :
    get_user_memory ⟨[], []⟩ "u" ⟨0, 1⟩
      = .ok (⟨[("u", default_record ⟨0, 1⟩)], [("u", .float ⟨0, 1⟩)]⟩, .obj []) ∧
    jLookup (.obj []) "profile" = none ∧
    jLookup (default_record ⟨0, 1⟩) "profile" = some (.obj []) :=
  ⟨rfl, rfl, rfl⟩

/-- C8 (amended): get is get-or-create on the store — on first access it
creates and stores a default record (empty collections, creation and
access timestamps) but returns the empty record captured before creation;
on later accesses it returns the stored record with lastAccessed freshly
stamped.  For records stored as dictionaries it never fails. -/
theorem get_user_memory_get_or_create (bank : Bank) (uid : String) (now : PyNum) :
    (lookupKV bank.data uid = none →
      get_user_memory bank uid now
        = .ok (⟨setKV bank.data uid (default_record now),
                setKV bank.access_timestamps uid (.float now)⟩, .obj [])) ∧
    (∀ rkvs, lookupKV bank.data uid = some (.obj rkvs) →
      get_user_memory bank uid now
        = .ok (⟨setKV bank.data uid (.obj (setKV rkvs "last_accessed" (.float now))),
                setKV bank.access_timestamps uid (.float now)⟩,
               .obj (setKV rkvs "last_accessed" (.float now)))) := by
  constructor
  · intro h
    have hkv : hasKV bank.data uid = false := by simp [hasKV, h]
    simp [get_user_memory, hkv, lookupKV_setKV_self, default_record, setKV_setKV_self, setKV]
  · intro rkvs h
    have hkv : hasKV bank.data uid = true := by simp [hasKV, h]
    simp [get_user_memory, hkv, h]

/-- C8 witness: a stored record gets its lastAccessed stamped and is
returned. -/
theorem get_user_memory_get_or_create_witness :
    get_user_memory ⟨[("u", .obj [])], []⟩ "u" ⟨0, 1⟩
      = .ok (⟨setKV [("u", .obj [])] "u" (.obj (setKV [] "last_accessed" (.float ⟨0, 1⟩))),
              setKV [] "u" (.float ⟨0, 1⟩)⟩,
             .obj (setKV [] "last_accessed" (.float ⟨0, 1⟩))) :=
  (get_user_memory_get_or_create ⟨[("u", .obj [])], []⟩ "u" ⟨0, 1⟩).2 [] rfl

/-- Projection: the progress_records_compacted counter stored inside a
record's compaction_metadata (or -1 when absent). -/
def cm_count (m : JVal) : Int :=
  match jLookup m "compaction_metadata" with
  | some cm => intVal ((jLookup cm "progress_records_compacted").getD (.int (-1)))
  | none => -1

/-- A record whose progress tiering succeeds and writes into the
caller-owned compaction_metadata dictionary, after which the
interaction-pattern stage raises comparing an int frequency with a
string. -/
def c2rec : JVal := .obj
  [("compaction_metadata", .obj []),
   ("progress_history", .arr (List.replicate 11 (.obj [("timestamp", .int 0)]))),
   ("interaction_patterns", .obj [("preferred_learning_times", .obj
      [("a", .int 1), ("b", .int 2), ("c", .int 3), ("d", .str "x")])])]

/-- The caller's record after the failed compaction call: the
compaction_metadata dictionary now carries progress_records_compacted. -/
def c2recMut : JVal := .obj
  [("compaction_metadata", .obj [("progress_records_compacted", .int 11)]),
   ("progress_history", .arr (List.replicate 11 (.obj [("timestamp", .int 0)]))),
   ("interaction_patterns", .obj [("preferred_learning_times", .obj
      [("a", .int 1), ("b", .int 2), ("c", .int 3), ("d", .str "x")])])]

set_option maxRecDepth 100000 in
/-- C2 counterexample: when an internal stage raises after an earlier stage
already wrote into a nested dictionary shared with the caller's record,
the call returns the caller's record with that field modified — compaction
is not atomic at the value level (though no exception propagates). -/
theorem compact_failure_not_atomic :
    run_pipeline 10000 ⟨1000000000, 1⟩ c2rec = .error (.typeErr, c2recMut) ∧
    compact_user_memory 10000 ⟨1000000000, 1⟩ c2rec = (c2recMut, c2recMut) ∧
    cm_count c2rec = -1 ∧
    cm_count c2recMut = 11 ∧
    c2rec ≠ c2recMut := by
  refine ⟨rfl, rfl, by decide, by decide, ?_⟩
  intro h
  exact absurd (congrArg cm_count h) (by decide)

/-- C2 (amended): no exception ever propagates out of compact_user_memory;
when any internal stage raises, the caller receives its own record object
back (never the partially built working copy) — but nested dictionaries
shared with that record may already have been modified in place, so the
returned record can differ from the value passed in. -/
theorem compact_failure_returns_caller_record
    (max_memory_size : Nat) (now : PyNum) (mem : JVal) (e : PyErr) (o : JVal)
    (h : run_pipeline max_memory_size now mem = .error (e, o)) :
    compact_user_memory max_memory_size now mem = (o, o) := by
  simp [compact_user_memory, h]

set_option maxRecDepth 100000 in
/-- C2 witness: the failing record concretely. -/
theorem compact_failure_returns_caller_record_witness :
    compact_user_memory 10000 ⟨1000000000, 1⟩ c2rec = (c2recMut, c2recMut) :=
  compact_failure_returns_caller_record 10000 ⟨1000000000, 1⟩ c2rec
    .typeErr c2recMut (by rfl)

theorem pyCopy_ok (m c : JVal) (h : pyCopy m = .ok c) : c = m := by
  cases m <;> simp [pyCopy] at h <;> simp [h]

theorem pyGetItem_ok (m : JVal) (k : String) (v : JVal) (h : pyGetItem m k = .ok v) :
    ∃ kvs, m = .obj kvs ∧ lookupKV kvs k = some v := by
  cases m with
  | obj kvs =>
    cases hl : lookupKV kvs k with
    | none => simp [pyGetItem, hl] at h
    | some x =>
      simp [pyGetItem, hl] at h
      exact ⟨kvs, rfl, by rw [hl, h]⟩
  | null => simp [pyGetItem] at h
  | bool b => simp [pyGetItem] at h
  | int i => simp [pyGetItem] at h
  | float f => simp [pyGetItem] at h
  | str s => simp [pyGetItem] at h
  | arr xs => simp [pyGetItem] at h

/-- When plan tiering does not fire on a dictionary record,
`_compact_plans` returns it unchanged. -/
theorem compact_plans_id_of_not_fires (now : PyNum) (kvs : List (String × JVal))
    (h : plans_fires (.obj kvs) = false) :
    compact_plans now (.obj kvs) = .ok (.obj kvs) := by
  cases hl : lookupKV kvs "plans" with
  | none => simp [compact_plans, pyContains, hasKV, hl]
  | some v =>
    cases v with
    | arr ps =>
      have hle : ps.length ≤ 5 := by
        simp [plans_fires, hl, decide_eq_false_iff_not] at h
        omega
      simp [compact_plans, pyContains, hasKV, hl, pyGetItem, hle]
    | null => simp [compact_plans, pyContains, hasKV, hl, pyGetItem]
    | bool b => simp [compact_plans, pyContains, hasKV, hl, pyGetItem]
    | int i => simp [compact_plans, pyContains, hasKV, hl, pyGetItem]
    | float f => simp [compact_plans, pyContains, hasKV, hl, pyGetItem]
    | str s => simp [compact_plans, pyContains, hasKV, hl, pyGetItem]
    | obj kvs2 => simp [compact_plans, pyContains, hasKV, hl, pyGetItem]

/-- When plan tiering does not fire, a successful `_compact_plans` returns
its input unchanged. -/
theorem compact_plans_skip (now : PyNum) (m c : JVal)
    (hf : plans_fires m = false) (h : compact_plans now m = .ok c) : c = m := by
  cases m with
  | obj kvs =>
    rw [compact_plans_id_of_not_fires now kvs hf] at h
    exact (Except.ok.inj h).symm
  | arr xs =>
    by_cases hb : (xs.any fun x => pyEq (.str "plans") x) = true
    · simp [compact_plans, pyContains, hb, pyGetItem] at h
    · simp [compact_plans, pyContains, hb, pyGetItem] at h
      exact h.symm
  | str s =>
    by_cases hb : ("plans".isPrefixOf s || ((s.splitOn "plans").length > 1)) = true
    · simp [compact_plans, pyContains, hb, pyGetItem] at h
    · simp [compact_plans, pyContains, hb, pyGetItem] at h
      exact h.symm
  | null => simp [compact_plans, pyContains] at h
  | bool b => simp [compact_plans, pyContains] at h
  | int i => simp [compact_plans, pyContains] at h
  | float f => simp [compact_plans, pyContains] at h

/-- Caller-record slot of a pipeline outcome. -/
def stages14_origOf : Except (PyErr × JVal) (JVal × JVal) → JVal
  | .error (_, o) => o
  | .ok (_, o) => o

/-- Through the first four stages, the caller's record is untouched as long
as the progress-tiering bookkeeping write cannot land in a caller-owned
compaction_metadata dictionary: either plan tiering fired (and replaced
that dictionary with a fresh one) or progress tiering performs no write. -/
theorem stages14_keeps_orig (now : PyNum) (mem : JVal)
    (hA : plans_fires mem = true ∨
          ∀ v n, compact_progress_history now mem ≠ .ok (v, some n)) :
    stages14_origOf (stages14 now mem) = mem := by
  unfold stages14
  cases hcp : pyCopy mem with
  | error e => simp only [stages14_origOf]
  | ok c0 =>
    rw [pyCopy_ok mem c0 hcp]
    cases hp : compact_plans now mem with
    | error e => simp only [hp, stages14_origOf]
    | ok c1 =>
      simp only [hp]
      cases hph : compact_progress_history now c1 with
      | error e => simp only [hph, stages14_origOf]
      | ok p =>
        simp only [hph]
        obtain ⟨c2, wrote⟩ := p
        cases wrote with
        | none =>
          cases compact_interaction_patterns c2 with
          | error e => simp only [stages14_origOf]
          | ok c3 =>
            cases hm : summarize_metadata c3 with
            | error e => simp only [hm, stages14_origOf]
            | ok c4 => simp only [hm, stages14_origOf]
        | some n =>
          have hor : (if plans_fires mem = true then mem else cm_write_orig mem n) = mem := by
            rcases hA with hf | hno
            · simp [hf]
            · cases hfm : plans_fires mem with
              | true => simp
              | false =>
                have hc1 : c1 = mem := compact_plans_skip now mem c1 hfm hp
                rw [hc1] at hph
                exact absurd hph (hno c2 n)
          simp only [hor]
          cases compact_interaction_patterns c2 with
          | error e => simp only [stages14_origOf]
          | ok c3 =>
            cases hm : summarize_metadata c3 with
            | error e => simp only [hm, stages14_origOf]
            | ok c4 => simp only [hm, stages14_origOf]

/-- C9 (amended): the compactor is not mutation-free in general — budget
enforcement summarizes plan dictionaries shared with the caller in place,
and progress tiering writes into a caller-owned compaction_metadata
dictionary — but when neither shared-dictionary write can occur (plan
tiering fired or progress tiering performs no bookkeeping write, and the
compacted record fits the budget so enforcement is skipped), the caller's
record is exactly as it was before the call. -/
theorem compact_within_budget_preserves_caller_record
    (max_memory_size : Nat) (now : PyNum) (mem : JVal)
    (hA : plans_fires mem = true ∨
          ∀ v n, compact_progress_history now mem ≠ .ok (v, some n))
    (hB : ∀ c o, stages14 now mem = .ok (c, o) → jsize c ≤ max_memory_size) :
    (compact_user_memory max_memory_size now mem).2 = mem := by
  have horig := stages14_keeps_orig now mem hA
  unfold compact_user_memory run_pipeline
  cases hs : stages14 now mem with
  | error p =>
    obtain ⟨e, o⟩ := p
    rw [hs] at horig
    simp only [stages14_origOf] at horig
    simp [horig]
  | ok p =>
    obtain ⟨c, o⟩ := p
    rw [hs] at horig
    simp only [stages14_origOf] at horig
    have hsize := hB c o hs
    simp [enforce_size_limits, hsize, horig]

/-- The record appearing after the first four stages on the empty record:
only the essential_metadata block is added. -/
def emptyMeta : JVal :=
  .obj [("essential_metadata", .obj
    [("created_at", .null), ("last_accessed", .null), ("last_updated", .null),
     ("total_learning_hours", .float ⟨0, 1⟩), ("preferences_summary", .obj [])])]

set_option maxRecDepth 100000 in
/-- C9 witness: compacting the empty record (within a 10000-byte budget)
leaves the caller's record untouched. -/
theorem compact_within_budget_preserves_caller_record_witness :
    (compact_user_memory 10000 ⟨0, 1⟩ (.obj [])).2 = .obj [] :=
  compact_within_budget_preserves_caller_record 10000 ⟨0, 1⟩ (.obj [])
    (Or.inr (fun v n h => by
      rw [show compact_progress_history ⟨0, 1⟩ (.obj []) = .ok (.obj [], none) from rfl] at h
      exact Option.noConfusion (congrArg Prod.snd (Except.ok.inj h))))
    (fun c o h => by
      rw [show stages14 ⟨0, 1⟩ (.obj []) = .ok (emptyMeta, .obj []) from rfl] at h
      injection h with h1
      cases h1
      decide)

/-- A record over a 10-byte budget whose single plan still holds its
plan_data and is not compacted. -/
def c9rec : JVal := .obj [("plans", .arr [.obj [("plan_data", .obj [])]])]

set_option maxRecDepth 100000 in
/-- C9 counterexample: under budget enforcement the caller's record is
mutated — the nested plan dictionary loses plan_data and gains
summary/compacted, because the compactor's shallow copies share the plan
dictionaries with the caller. -/
theorem enforce_size_limits_mutates_caller_plans :
    jLookup (first_plan c9rec) "plan_data" = some (.obj []) ∧
    jLookup (first_plan c9rec) "compacted" = none ∧
    jLookup (first_plan ((compact_user_memory 10 ⟨0, 1⟩ c9rec).2)) "plan_data" = none ∧
    jLookup (first_plan ((compact_user_memory 10 ⟨0, 1⟩ c9rec).2)) "compacted"
      = some (.bool true) ∧
    (compact_user_memory 10 ⟨0, 1⟩ c9rec).2 ≠ c9rec := by
  refine ⟨rfl, rfl, rfl, rfl, ?_⟩
  intro h
  exact absurd
    (congrArg (fun m => (jLookup (first_plan m) "plan_data").isSome) h)
    (by decide)

/-- Is the value an int (the well-formed histogram frequencies)? -/
def isIntV : JVal → Bool
  | .int _ => true
  | _ => false

theorem isIntV_eq (v : JVal) (h : isIntV v = true) : v = .int (intVal v) := by
  cases v <;> simp_all [isIntV, intVal]

/-- Entries of a histogram carrying the frequency `v` (in order). -/
def filtV (v : Int) (l : List (String × JVal)) : List (String × JVal) :=
  l.filter (fun kv => intVal kv.2 == v)

/-- Sorted by weakly descending frequency. -/
def DescBy (l : List (String × JVal)) : Prop :=
  l.Pairwise (fun a b => intVal b.2 ≤ intVal a.2)

theorem pyLt_int (a b : Int) : pyLt (.int a) (.int b) = .ok (decide (a < b)) := by
  simp [pyLt, asNum, PyNum.lt]

/-- Stable insertion into a descending run: the result is still descending,
one longer, draws from the old elements plus the new one, and every
frequency class keeps its order with the new item after its equals. -/
theorem sorted_desc_insert_spec (x : String × JVal) (l : List (String × JVal))
    (hx : isIntV x.2 = true) (hl : ∀ kv ∈ l, isIntV kv.2 = true) (hs : DescBy l) :
    ∃ r, sorted_desc_insert x l = .ok r ∧ DescBy r ∧
      r.length = l.length + 1 ∧
      (∀ z ∈ r, z ∈ l ∨ z = x) ∧
      (∀ v : Int, filtV v r
        = if intVal x.2 = v then filtV v l ++ [x] else filtV v l) := by
  induction l with
  | nil =>
    refine ⟨[x], rfl, List.pairwise_singleton _ _, rfl, ?_, ?_⟩
    · intro z hz
      simp at hz
      simp [hz]
    · intro v
      by_cases hv : intVal x.2 = v
      · simp [filtV, hv]
      · simp [filtV, hv]
  | cons y ys ih =>
    have hy := hl y (List.mem_cons_self _ _)
    have hys : ∀ kv ∈ ys, isIntV kv.2 = true := fun kv hkv => hl kv (List.mem_cons_of_mem _ hkv)
    have hsy : DescBy ys := hs.of_cons
    have hxe := isIntV_eq _ hx
    have hye := isIntV_eq _ hy
    have hcmp : pyLt y.2 x.2 = .ok (decide (intVal y.2 < intVal x.2)) := by
      rw [hye, hxe, pyLt_int]
      simp [intVal]
    by_cases hlt : intVal y.2 < intVal x.2
    · refine ⟨x :: y :: ys, ?_, ?_, by simp, ?_, ?_⟩
      · simp [sorted_desc_insert, hcmp, hlt]
      · refine List.Pairwise.cons ?_ hs
        intro z hz
        rcases List.mem_cons.mp hz with hz1 | hz2
        · rw [hz1]
          exact le_of_lt hlt
        · exact le_trans ((List.pairwise_cons.mp hs).1 z hz2) (le_of_lt hlt)
      · intro z hz
        rcases List.mem_cons.mp hz with hz1 | hz2
        · exact Or.inr hz1
        · exact Or.inl hz2
      · intro v
        by_cases hv : intVal x.2 = v
        · have hnone : filtV v (y :: ys) = [] := by
            apply List.filter_eq_nil_iff.mpr
            intro kv hkv
            have hkvy : intVal kv.2 ≤ intVal y.2 := by
              rcases List.mem_cons.mp hkv with h1 | h2
              · rw [h1]
              · exact (List.pairwise_cons.mp hs).1 kv h2
            simp only [beq_iff_eq]
            omega
          rw [hnone]
          have hxy : filtV v (x :: y :: ys) = x :: filtV v (y :: ys) := by
            simp [filtV, List.filter_cons, hv]
          rw [hxy, hnone]
          simp [hv]
        · simp only [filtV, List.filter_cons] at *
          simp [hv]
    · obtain ⟨r, hr, hdesc, hlen, hmem, hfilt⟩ := ih hys hsy
      refine ⟨y :: r, ?_, ?_, by simp [hlen], ?_, ?_⟩
      · simp [sorted_desc_insert, hcmp, hlt, hr]
      · refine List.Pairwise.cons ?_ hdesc
        intro z hz
        rcases hmem z hz with h2 | h3
        · exact (List.pairwise_cons.mp hs).1 z h2
        · rw [h3]
          exact le_of_not_lt hlt
      · intro z hz
        rcases List.mem_cons.mp hz with hz1 | hz2
        · exact Or.inl (by rw [hz1]; exact List.mem_cons_self _ _)
        · rcases hmem z hz2 with h3 | h3
          · exact Or.inl (List.mem_cons_of_mem _ h3)
          · exact Or.inr h3
      · intro v
        have hf := hfilt v
        by_cases hv : intVal x.2 = v
        · rw [if_pos hv] at hf
          by_cases hyv : intVal y.2 = v
          · have h1 : filtV v (y :: r) = y :: filtV v r := by
              simp [filtV, List.filter_cons, hyv]
            have h2 : filtV v (y :: ys) = y :: filtV v ys := by
              simp [filtV, List.filter_cons, hyv]
            rw [h1, h2, hf, if_pos hv]
            simp
          · have h1 : filtV v (y :: r) = filtV v r := by
              simp [filtV, List.filter_cons, hyv]
            have h2 : filtV v (y :: ys) = filtV v ys := by
              simp [filtV, List.filter_cons, hyv]
            rw [h1, h2, hf, if_pos hv]
        · rw [if_neg hv] at hf
          by_cases hyv : intVal y.2 = v
          · have h1 : filtV v (y :: r) = y :: filtV v r := by
              simp [filtV, List.filter_cons, hyv]
            have h2 : filtV v (y :: ys) = y :: filtV v ys := by
              simp [filtV, List.filter_cons, hyv]
            rw [h1, h2, hf, if_neg hv]
          · have h1 : filtV v (y :: r) = filtV v r := by
              simp [filtV, List.filter_cons, hyv]
            have h2 : filtV v (y :: ys) = filtV v ys := by
              simp [filtV, List.filter_cons, hyv]
            rw [h1, h2, hf, if_neg hv]

/-- Folding stable insertions over the histogram items: descending result,
same length, drawn from the inputs, and per-frequency order preserved. -/
theorem sorted_desc_go_spec (items : List (String × JVal)) :
    ∀ acc : List (String × JVal),
      (∀ kv ∈ items, isIntV kv.2 = true) → (∀ kv ∈ acc, isIntV kv.2 = true) →
      DescBy acc →
      ∃ r, sorted_desc_go acc items = .ok r ∧ DescBy r ∧
        r.length = acc.length + items.length ∧
        (∀ z ∈ r, z ∈ acc ∨ z ∈ items) ∧
        (∀ v : Int, filtV v r = filtV v acc ++ filtV v items) := by
  induction items with
  | nil =>
    intro acc _ ha hs
    exact ⟨acc, rfl, hs, rfl, fun z hz => Or.inl hz, fun v => by simp [filtV]⟩
  | cons x xs ih =>
    intro acc hi ha hs
    have hx : isIntV x.2 = true := hi x (List.mem_cons_self _ _)
    have hxs : ∀ kv ∈ xs, isIntV kv.2 = true := fun kv hkv => hi kv (List.mem_cons_of_mem _ hkv)
    obtain ⟨r1, hr1, hd1, hl1, hm1, hf1⟩ := sorted_desc_insert_spec x acc hx ha hs
    have ha1 : ∀ kv ∈ r1, isIntV kv.2 = true := by
      intro kv hkv
      rcases hm1 kv hkv with h2 | h2
      · exact ha kv h2
      · rw [h2]; exact hx
    obtain ⟨r, hr, hd, hl, hm, hf⟩ := ih r1 hxs ha1 hd1
    refine ⟨r, ?_, hd, ?_, ?_, ?_⟩
    · simp [sorted_desc_go, hr1, hr]
    · rw [hl, hl1]
      simp
      omega
    · intro z hz
      rcases hm z hz with h2 | h2
      · rcases hm1 z h2 with h3 | h3
        · exact Or.inl h3
        · exact Or.inr (by rw [h3]; exact List.mem_cons_self _ _)
      · exact Or.inr (List.mem_cons_of_mem _ h2)
    · intro v
      rw [hf v, hf1 v]
      by_cases hv : intVal x.2 = v
      · have h2 : filtV v (x :: xs) = x :: filtV v xs := by
          simp [filtV, List.filter_cons, hv]
        rw [if_pos hv, h2]
        simp
      · have h2 : filtV v (x :: xs) = filtV v xs := by
          simp [filtV, List.filter_cons, hv]
        rw [if_neg hv, h2]

/-- The sort of `_compact_interaction_patterns` is a stable descending sort
of the histogram: the result is weakly descending by frequency, is the
same length, and every frequency class appears in its original (first-seen)
order. -/
theorem sorted_desc_by_val_spec (items : List (String × JVal))
    (hi : ∀ kv ∈ items, isIntV kv.2 = true) :
    ∃ r, sorted_desc_by_val items = .ok r ∧ DescBy r ∧
      r.length = items.length ∧
      (∀ z ∈ r, z ∈ items) ∧
      (∀ v : Int, filtV v r = filtV v items) := by
  obtain ⟨r, hr, hd, hl, hm, hf⟩ :=
    sorted_desc_go_spec items [] hi (by intro kv h; cases h) List.Pairwise.nil
  refine ⟨r, hr, hd, by simpa using hl, ?_, ?_⟩
  · intro z hz
    rcases hm z hz with h2 | h2
    · cases h2
    · exact h2
  · intro v
    rw [hf v]
    simp [filtV]

theorem tcp_step_append (pk sig1 : List (String × JVal)) :
    ∃ t, tcp_step pk sig1 = sig1 ++ t := by
  unfold tcp_step
  by_cases h : hasKV pk "task_completion_patterns"
  · rw [if_pos h]
    cases (lookupKV pk "task_completion_patterns").getD .null with
    | obj ck => exact ⟨_, rfl⟩
    | null => exact ⟨[], by simp⟩
    | bool b => exact ⟨[], by simp⟩
    | int i => exact ⟨[], by simp⟩
    | float f => exact ⟨[], by simp⟩
    | str s => exact ⟨[], by simp⟩
    | arr xs => exact ⟨[], by simp⟩
  · rw [if_neg h]
    exact ⟨[], by simp⟩

theorem lsp_step_append (pk sig2 : List (String × JVal)) :
    ∃ t, lsp_step pk sig2 = sig2 ++ t := by
  unfold lsp_step
  by_cases h : hasKV pk "learning_style_preferences"
  · rw [if_pos h]
    exact ⟨_, rfl⟩
  · rw [if_neg h]
    exact ⟨[], by simp⟩

/-- C7: for a dictionary-valued preferredLearningTimes histogram with more
than 3 int-valued entries, the interaction-pattern stage keeps exactly the
first 3 entries of a stable descending sort of the histogram — top 3 by
frequency, ties resolved by first-seen order (every frequency class keeps
its original order) — and a histogram with at most 3 entries passes through
unchanged. -/
theorem interaction_patterns_top3_stable
    (kvs pk tk : List (String × JVal))
    (hip : lookupKV kvs "interaction_patterns" = some (.obj pk))
    (hplt : lookupKV pk "preferred_learning_times" = some (.obj tk))
    (hints : ∀ kv ∈ tk, isIntV kv.2 = true) :
    (3 < tk.length →
      ∃ st, sorted_desc_by_val tk = .ok st ∧ DescBy st ∧ st.length = tk.length ∧
        (∀ v : Int, filtV v st = filtV v tk) ∧
        ∃ m2 sig, compact_interaction_patterns (.obj kvs) = .ok m2 ∧
          jLookup m2 "interaction_patterns" = some (.obj sig) ∧
          lookupKV sig "preferred_learning_times" = some (.obj (st.take 3))) ∧
    (tk.length ≤ 3 →
      ∃ m2 sig, compact_interaction_patterns (.obj kvs) = .ok m2 ∧
        jLookup m2 "interaction_patterns" = some (.obj sig) ∧
        lookupKV sig "preferred_learning_times" = some (.obj tk)) := by
  have hip_true : hasKV kvs "interaction_patterns" = true := by simp [hasKV, hip]
  have hplt_true : hasKV pk "preferred_learning_times" = true := by simp [hasKV, hplt]
  constructor
  · intro hgt
    obtain ⟨st, hst, hdesc, hlen, hmemst, hfilt⟩ := sorted_desc_by_val_spec tk hints
    refine ⟨st, hst, hdesc, hlen, hfilt, ?_⟩
    have hstep : plt_step pk = .ok [("preferred_learning_times", .obj (st.take 3))] := by
      simp [plt_step, hplt_true, hplt, hgt, hst]
    obtain ⟨t1, ht1⟩ :=
      tcp_step_append pk [("preferred_learning_times", .obj (st.take 3))]
    obtain ⟨t2, ht2⟩ :=
      lsp_step_append pk (tcp_step pk [("preferred_learning_times", .obj (st.take 3))])
    refine ⟨.obj (setKV kvs "interaction_patterns"
        (.obj (lsp_step pk (tcp_step pk [("preferred_learning_times", .obj (st.take 3))])))),
      lsp_step pk (tcp_step pk [("preferred_learning_times", .obj (st.take 3))]),
      ?_, ?_, ?_⟩
    · simp [compact_interaction_patterns, pyContains, hip_true, pyGetItem, hip, hstep,
        pySetItem]
    · simp [jLookup, lookupKV_setKV_self]
    · rw [ht2, ht1]
      simp [lookupKV]
  · intro hle
    have hstep : plt_step pk = .ok [("preferred_learning_times", .obj tk)] := by
      simp [plt_step, hplt_true, hplt, Nat.not_lt.mpr hle]
    obtain ⟨t1, ht1⟩ := tcp_step_append pk [("preferred_learning_times", .obj tk)]
    obtain ⟨t2, ht2⟩ :=
      lsp_step_append pk (tcp_step pk [("preferred_learning_times", .obj tk)])
    refine ⟨.obj (setKV kvs "interaction_patterns"
        (.obj (lsp_step pk (tcp_step pk [("preferred_learning_times", .obj tk)])))),
      lsp_step pk (tcp_step pk [("preferred_learning_times", .obj tk)]),
      ?_, ?_, ?_⟩
    · simp [compact_interaction_patterns, pyContains, hip_true, pyGetItem, hip, hstep,
        pySetItem]
    · simp [jLookup, lookupKV_setKV_self]
    · rw [ht2, ht1]
      simp [lookupKV]

/-- The histogram from the specification example. -/
def histEx : List (String × JVal) :=
  [("morning", .int 5), ("evening", .int 5), ("night", .int 2), ("afternoon", .int 1)]

/-- C7 witness: on the example histogram the stage keeps morning, evening
and night and drops afternoon. -/
theorem interaction_patterns_top3_stable_witness :
    ∃ m2 sig,
      compact_interaction_patterns
        (.obj [("interaction_patterns", .obj [("preferred_learning_times", .obj histEx)])])
        = .ok m2 ∧
      jLookup m2 "interaction_patterns" = some (.obj sig) ∧
      lookupKV sig "preferred_learning_times"
        = some (.obj [("morning", .int 5), ("evening", .int 5), ("night", .int 2)]) := by
  obtain ⟨st, hst, hdesc, hlen, hfilt, m2, sig, hm2, hsig, hlook⟩ :=
    (interaction_patterns_top3_stable
      [("interaction_patterns", .obj [("preferred_learning_times", .obj histEx)])]
      [("preferred_learning_times", .obj histEx)] histEx rfl rfl (by decide)).1
      (by decide)
  have hstval : st
      = [("morning", .int 5), ("evening", .int 5), ("night", .int 2), ("afternoon", .int 1)] := by
    rw [show sorted_desc_by_val histEx
        = .ok [("morning", .int 5), ("evening", .int 5), ("night", .int 2),
               ("afternoon", .int 1)] from rfl] at hst
    exact (Except.ok.inj hst).symm
  rw [hstval] at hlook
  exact ⟨m2, sig, hm2, hsig, hlook⟩

/-- Field values of a well-formed progress record with integer metrics. -/
structure PData where
  t : Int
  cr : Int
  es : Int
  tt : Int
  ct : Int
deriving DecidableEq

/-- A progress record as the store produces it: a timestamp and the four
metric counters. -/
def mkProgressRecord (d : PData) : JVal :=
  .obj [("timestamp", .int d.t),
        ("metrics", .obj
          [("completion_rate", .int d.cr), ("efficiency_score", .int d.es),
           ("total_tasks", .int d.tt), ("completed_tasks", .int d.ct)])]

theorem pySumGo_int (f : PData → Int) (ds : List PData) : ∀ a : Int,
    pySumGo (.int a) (ds.map (fun d => JVal.int (f d)))
      = .ok (.int (ds.foldl (fun x d => x + f d) a)) := by
  induction ds with
  | nil => intro a; simp [pySumGo]
  | cons d rest ih =>
    intro a
    simp only [List.map_cons, pySumGo, pyAdd, asNum]
    exact ih (a + f d)

/-- One grouping step on a single-bucket accumulator for the same week. -/
theorem trend_step_same_week (w : String) (crs ess : List JVal) (a c : Int)
    (d : PData) (hw : weekKey d.t = w) :
    trend_step [(w, ⟨crs, ess, .int a, .int c⟩)] (mkProgressRecord d)
      = .ok [(w, ⟨crs ++ [.int d.cr], ess ++ [.int d.es],
                  .int (a + d.tt), .int (c + d.ct)⟩)] := by
  simp [trend_step, mkProgressRecord, pyDictGet, lookupKV, asNum, PyNum.floorInt,
    Int.fdiv_one, hw, bucket_update, pyAdd]

/-- The first grouping step, creating the bucket. -/
theorem trend_step_first (w : String) (d : PData) (hw : weekKey d.t = w) :
    trend_step [] (mkProgressRecord d)
      = .ok [(w, ⟨[.int d.cr], [.int d.es], .int (0 + d.tt), .int (0 + d.ct)⟩)] := by
  simp [trend_step, mkProgressRecord, pyDictGet, lookupKV, asNum, PyNum.floorInt,
    Int.fdiv_one, hw, bucket_update, pyAdd]

/-- Folding same-week records extends the single bucket, appending each
record's rates in order and accumulating its task counts. -/
theorem trend_fold_same_week (w : String) (ds : List PData) :
    ∀ (crs ess : List JVal) (a c : Int), (∀ d ∈ ds, weekKey d.t = w) →
      trend_fold [(w, ⟨crs, ess, .int a, .int c⟩)] (ds.map mkProgressRecord)
        = .ok [(w, ⟨crs ++ ds.map (fun d => JVal.int d.cr),
                    ess ++ ds.map (fun d => JVal.int d.es),
                    .int (ds.foldl (fun x d => x + d.tt) a),
                    .int (ds.foldl (fun x d => x + d.ct) c)⟩)] := by
  induction ds with
  | nil =>
    intro crs ess a c _
    simp [trend_fold]
  | cons d rest ih =>
    intro crs ess a c hw
    have hd : weekKey d.t = w := hw d (List.mem_cons_self _ _)
    have hrest : ∀ d2 ∈ rest, weekKey d2.t = w :=
      fun d2 h2 => hw d2 (List.mem_cons_of_mem _ h2)
    simp only [List.map_cons, trend_fold, trend_step_same_week w crs ess a c d hd]
    rw [ih (crs ++ [JVal.int d.cr]) (ess ++ [JVal.int d.es]) (a + d.tt) (c + d.ct) hrest]
    simp

/-- C6: progress entries all falling in the same year-week bucket fold into
a single WeeklyTrend whose overall_completion_rate is the rounded-to-2-
decimals value of sum(completed_tasks)/sum(total_tasks)*100 — the stored
float is rne(sumCT/sumTT*100*100)/100 with rne rounding half to even — and
whose records_aggregated equals the number of entries folded. -/
theorem aggregate_trends_single_week (w : String) (d0 : PData) (ds : List PData)
    (hw : ∀ d ∈ d0 :: ds, weekKey d.t = w)
    (hpos : 0 < (d0 :: ds).foldl (fun x d => x + d.tt) 0) :
    ∃ tr, aggregate_progress_trends ((d0 :: ds).map mkProgressRecord)
        = .ok (.obj [(w, .obj tr)]) ∧
      lookupKV tr "overall_completion_rate"
        = some (.float ⟨PyNum.rne ⟨(d0 :: ds).foldl (fun x d => x + d.ct) 0 * 100 * 100,
                                  (d0 :: ds).foldl (fun x d => x + d.tt) 0⟩, 100⟩) ∧
      lookupKV tr "records_aggregated" = some (.int ((d0 :: ds).length)) := by
  have hd0 : weekKey d0.t = w := hw d0 (List.mem_cons_self _ _)
  have hrest : ∀ d ∈ ds, weekKey d.t = w := fun d h => hw d (List.mem_cons_of_mem _ h)
  have hfold : trend_fold [] ((d0 :: ds).map mkProgressRecord)
      = .ok [(w, ⟨(d0 :: ds).map (fun d => JVal.int d.cr),
                  (d0 :: ds).map (fun d => JVal.int d.es),
                  .int ((d0 :: ds).foldl (fun x d => x + d.tt) 0),
                  .int ((d0 :: ds).foldl (fun x d => x + d.ct) 0)⟩)] := by
    simp only [List.map_cons, trend_fold, trend_step_first w d0 hd0]
    rw [trend_fold_same_week w ds [JVal.int d0.cr] [JVal.int d0.es]
      (0 + d0.tt) (0 + d0.ct) hrest]
    simp
  have hTnlt : ¬ ((d0 :: ds).foldl (fun x d => x + d.tt) 0 < 0) :=
    not_lt.mpr (le_of_lt hpos)
  have hb : bucket_trend
      ⟨(d0 :: ds).map (fun d => JVal.int d.cr),
       (d0 :: ds).map (fun d => JVal.int d.es),
       .int ((d0 :: ds).foldl (fun x d => x + d.tt) 0),
       .int ((d0 :: ds).foldl (fun x d => x + d.ct) 0)⟩
      = .ok (.obj
        [("average_completion_rate",
          .float (PyNum.round2 (PyNum.div
            ⟨(d0 :: ds).foldl (fun x d => x + d.cr) 0, 1⟩ ⟨(ds.length + 1 : Nat), 1⟩))),
         ("average_efficiency_score",
          .float (PyNum.round2 (PyNum.div
            ⟨(d0 :: ds).foldl (fun x d => x + d.es) 0, 1⟩ ⟨(ds.length + 1 : Nat), 1⟩))),
         ("overall_completion_rate",
          .float ⟨PyNum.rne ⟨(d0 :: ds).foldl (fun x d => x + d.ct) 0 * 100 * 100,
                            (d0 :: ds).foldl (fun x d => x + d.tt) 0⟩, 100⟩),
         ("records_aggregated", .int ((d0 :: ds).length))]) := by
    simp only [bucket_trend, pySum, pySumGo_int, List.length_map, List.length_cons,
      pyDiv, pyGt, pyLt, asNum, PyNum.isZero]
    simp only [decide_eq_true_eq, Nat.cast_eq_zero, decide_eq_false_iff_not]
    rw [if_neg (by omega), if_neg (by omega), if_neg (ne_of_gt hpos)]
    simp only [PyNum.lt]
    rw [if_pos (by simpa using hpos)]
    simp only [pyMul, asNum, pyRound2]
    have hTnlt2 : ¬ (List.foldl (fun x d => x + d.tt) d0.tt ds < 0) := by
      simpa using hTnlt
    simp [PyNum.round2, PyNum.mul, PyNum.div, hTnlt2, mul_one, one_mul, List.length_cons]
  refine ⟨[("average_completion_rate",
          .float (PyNum.round2 (PyNum.div
            ⟨(d0 :: ds).foldl (fun x d => x + d.cr) 0, 1⟩ ⟨(ds.length + 1 : Nat), 1⟩))),
         ("average_efficiency_score",
          .float (PyNum.round2 (PyNum.div
            ⟨(d0 :: ds).foldl (fun x d => x + d.es) 0, 1⟩ ⟨(ds.length + 1 : Nat), 1⟩))),
         ("overall_completion_rate",
          .float ⟨PyNum.rne ⟨(d0 :: ds).foldl (fun x d => x + d.ct) 0 * 100 * 100,
                            (d0 :: ds).foldl (fun x d => x + d.tt) 0⟩, 100⟩),
         ("records_aggregated", .int ((d0 :: ds).length))], ?_, ?_, ?_⟩
  · simp only [aggregate_progress_trends, List.map_cons, List.isEmpty_cons,
      Bool.false_eq_true, if_false]
    rw [show ((mkProgressRecord d0 :: ds.map mkProgressRecord))
        = (d0 :: ds).map mkProgressRecord from rfl, hfold]
    simp only [trends_of, hb]
  · simp [lookupKV]
  · simp [lookupKV]

def c6d0 : PData := ⟨0, 80, 70, 3, 2⟩

def c6d1 : PData := ⟨86400, 60, 50, 2, 1⟩

/-- C6 witness: two first-week-of-1970 records with 2/3 and 1/2 tasks
completed fold into one 1970-00 trend (3+2 total, 2+1 completed, so
overall 60.0, aggregated over 2 records). -/
theorem aggregate_trends_single_week_witness :
    ∃ tr, aggregate_progress_trends ((c6d0 :: [c6d1]).map mkProgressRecord)
        = .ok (.obj [("1970-00", .obj tr)]) ∧
      lookupKV tr "overall_completion_rate"
        = some (.float ⟨PyNum.rne ⟨(c6d0 :: [c6d1]).foldl (fun x d => x + d.ct) 0 * 100 * 100,
                                  (c6d0 :: [c6d1]).foldl (fun x d => x + d.tt) 0⟩, 100⟩) ∧
      lookupKV tr "records_aggregated" = some (.int ((c6d0 :: [c6d1]).length)) :=
  aggregate_trends_single_week "1970-00" c6d0 [c6d1] (by decide) (by decide)
